import Mathlib

/-!
A verification model of the equipment-maintenance registry (bases, workshops,
equipment, components, spare parts, suppliers and the equipment–component–
spare-part association table), shallowly embedding:

* the relational rows of `shared/schema.ts` as Lean structures,
* the data-access functions of `server/storage.ts` as pure functions over an
  in-memory `Database` (SQL inner joins become nested-loop joins, `LEFT JOIN`
  keeps a row with an absent match, `WHERE` becomes `List.filter`, `ORDER BY`
  becomes a stable insertion sort, `LIMIT`/`OFFSET` become `take`/`drop`),
* the relevant HTTP handlers of `server/routes.ts` (equipment listing with
  pagination, spare-part creation, base deletion, and the two hierarchy
  endpoints) as functions from a database and request parameters to responses.

Timestamps are modelled as natural numbers, SQL `text` as `String`, nullable
columns as `Option`, and the `double precision` failure-rate column as
`Option ℚ` (it is never computed with).  JavaScript property access on a
missing key is modelled by total field-lookup functions returning `Option`.
-/

/-! ## String ordering and substring matching

PostgreSQL `ORDER BY` on a text column and `LIKE '%kw%'` matching are modelled
by code-point lexicographic comparison and substring containment on the
underlying character lists. -/

/-- Lexicographic `≤` on character lists by code point. -/
def listCharLe : List Char → List Char → Bool
  | [], _ => true
  | _ :: _, [] => false
  | a :: as, b :: bs =>
    if a.toNat < b.toNat then true
    else if b.toNat < a.toNat then false
    else listCharLe as bs

/-- Lexicographic `<` on character lists by code point. -/
def listCharLt : List Char → List Char → Bool
  | [], [] => false
  | [], _ :: _ => true
  | _ :: _, [] => false
  | a :: as, b :: bs =>
    if a.toNat < b.toNat then true
    else if b.toNat < a.toNat then false
    else listCharLt as bs

/-- String `≤` (models text ordering used by SQL `ORDER BY`). -/
def strLe (s t : String) : Bool := listCharLe s.data t.data

/-- String `<` (models text ordering used by SQL `ORDER BY`). -/
def strLt (s t : String) : Bool := listCharLt s.data t.data

/-- `charsBeginWith k l` holds when `k` is an initial segment of `l`. -/
def charsBeginWith : List Char → List Char → Bool
  | [], _ => true
  | _ :: _, [] => false
  | a :: as, b :: bs => a == b && charsBeginWith as bs

/-- `charsContain l k` holds when `k` occurs contiguously inside `l`. -/
def charsContain : List Char → List Char → Bool
  | [], k => charsBeginWith k []
  | c :: rest, k => charsBeginWith k (c :: rest) || charsContain rest k

/-- `strIncludes s k`: `k` occurs as a substring of `s`; models `LIKE '%k%'`. -/
def strIncludes (s k : String) : Bool := charsContain s.data k.data

/-- SQL `LIKE` applied to a nullable column: a `NULL` operand makes the
predicate non-true, so the row does not satisfy it. -/
def optIncludes : Option String → String → Bool
  | none, _ => false
  | some s, k => strIncludes s k

/-- Specification-level substring occurrence: `k` occurs contiguously in `s`. -/
def hasSubstr (s k : String) : Prop :=
  ∃ pre post : List Char, s.data = pre ++ k.data ++ post

/-! ## Rows of `shared/schema.ts` -/

/-- Row of the `base` table. -/
structure BaseRow where
  baseId : Nat
  baseName : String
  createdAt : Nat
  updatedAt : Nat
deriving DecidableEq

/-- Row of the `workshop` table; `busyLevel` is the enum `'1' | '2' | '3' | '4'`. -/
structure WorkshopRow where
  workshopId : Nat
  baseId : Nat
  workshopName : String
  busyLevel : String
  createdAt : Nat
  updatedAt : Nat
deriving DecidableEq

/-- Row of the `equipment_type` table. -/
structure EquipmentTypeRow where
  typeId : Nat
  typeName : String
  lifecycleYears : Option Int
  createdAt : Nat
  updatedAt : Nat
deriving DecidableEq

/-- Row of the `equipment` table. -/
structure EquipmentRow where
  equipmentId : Nat
  workshopId : Nat
  typeId : Nat
  equipmentName : String
  createdAt : Nat
  updatedAt : Nat
deriving DecidableEq

/-- Row of the `component` table; `importanceLevel` is the enum `'A' | 'B' | 'C'`. -/
structure ComponentRow where
  componentId : Nat
  typeId : Nat
  componentName : String
  importanceLevel : String
  failureRate : Option ℚ
  lifecycleYears : Option Int
  createdAt : Nat
  updatedAt : Nat
deriving DecidableEq

/-- Row of the `spare_part` table. -/
structure SparePartRow where
  sparePartId : Nat
  materialCode : String
  manufacturer : String
  manufacturerMaterialCode : Option String
  specification : Option String
  description : Option String
  isCustom : Bool
  createdAt : Nat
  updatedAt : Nat
deriving DecidableEq

/-- Row of the `spare_part_supplier` table. -/
structure SparePartSupplierRow where
  supplierId : Nat
  sparePartId : Nat
  supplierName : String
  supplyCycleWeeks : Int
  createdAt : Nat
  updatedAt : Nat
deriving DecidableEq

/-- Row of the `equipment_component_spare_part` association table. -/
structure AssocRow where
  id : Nat
  equipmentId : Nat
  componentId : Nat
  sparePartId : Nat
  quantity : Option Int
  createdAt : Nat
  updatedAt : Nat
deriving DecidableEq

/-- The relational database: one list of rows per table. -/
structure Database where
  bases : List BaseRow
  workshops : List WorkshopRow
  equipmentTypes : List EquipmentTypeRow
  equipment : List EquipmentRow
  components : List ComponentRow
  spareParts : List SparePartRow
  sparePartSuppliers : List SparePartSupplierRow
  associations : List AssocRow
deriving DecidableEq

/-- Schema invariants enforced by the database engine: `serial` primary keys
are positive and unique, and every foreign key references an existing row. -/
def dbWf (db : Database) : Prop :=
  ((db.bases.map (·.baseId)).Nodup ∧
   (db.workshops.map (·.workshopId)).Nodup ∧
   (db.equipmentTypes.map (·.typeId)).Nodup ∧
   (db.equipment.map (·.equipmentId)).Nodup ∧
   (db.components.map (·.componentId)).Nodup ∧
   (db.spareParts.map (·.sparePartId)).Nodup ∧
   (db.sparePartSuppliers.map (·.supplierId)).Nodup ∧
   (db.associations.map (·.id)).Nodup) ∧
  ((∀ e ∈ db.equipment, 0 < e.equipmentId) ∧
   (∀ w ∈ db.workshops, ∃ b ∈ db.bases, b.baseId = w.baseId) ∧
   (∀ e ∈ db.equipment, ∃ w ∈ db.workshops, w.workshopId = e.workshopId) ∧
   (∀ e ∈ db.equipment, ∃ t ∈ db.equipmentTypes, t.typeId = e.typeId) ∧
   (∀ c ∈ db.components, ∃ t ∈ db.equipmentTypes, t.typeId = c.typeId) ∧
   (∀ s ∈ db.sparePartSuppliers, ∃ sp ∈ db.spareParts, sp.sparePartId = s.sparePartId)) ∧
  ((∀ a ∈ db.associations, ∃ e ∈ db.equipment, e.equipmentId = a.equipmentId) ∧
   (∀ a ∈ db.associations, ∃ c ∈ db.components, c.componentId = a.componentId) ∧
   (∀ a ∈ db.associations, ∃ sp ∈ db.spareParts, sp.sparePartId = a.sparePartId))

instance (db : Database) : Decidable (dbWf db) := by
  unfold dbWf; infer_instance

/-! ## Single-row lookups of `storage.ts` (`db.select().where(eq(pk, id))`) -/

/-- `DatabaseStorage.getBase`. -/
def getBase (db : Database) (id : Nat) : Option BaseRow :=
  db.bases.find? fun b => b.baseId == id

/-- `DatabaseStorage.getEquipment`. -/
def getEquipment (db : Database) (id : Nat) : Option EquipmentRow :=
  db.equipment.find? fun e => e.equipmentId == id

/-- `DatabaseStorage.getComponent`. -/
def getComponent (db : Database) (id : Nat) : Option ComponentRow :=
  db.components.find? fun c => c.componentId == id

/-- `DatabaseStorage.getSparePart`. -/
def getSparePart (db : Database) (id : Nat) : Option SparePartRow :=
  db.spareParts.find? fun sp => sp.sparePartId == id

/-- `DatabaseStorage.getSparePartByMaterialCode`. -/
def getSparePartByMaterialCode (db : Database) (materialCode : String) : Option SparePartRow :=
  db.spareParts.find? fun sp => sp.materialCode == materialCode

/-! ## `deleteBase` and `DELETE /api/bases/:id`

`deleteBase` runs `db.delete(bases).where(eq(bases.baseId, id))` and returns
`!!result`.  The driver's awaited result is a result *object* (row count,
fields, …); JavaScript object truthiness does not depend on how many rows were
deleted. -/

/-- Truthiness of the driver's delete-result object: an object is always
truthy in JavaScript, whatever its row count. -/
def deleteResultTruthy (_deletedCount : Nat) : Bool := true

/-- `DatabaseStorage.deleteBase`: delete matching rows, return `!!result`. -/
def deleteBase (db : Database) (id : Nat) : Database × Bool :=
  let remaining := db.bases.filter fun b => !(b.baseId == id)
  ({ db with bases := remaining },
   deleteResultTruthy (db.bases.length - remaining.length))

/-- `DELETE /api/bases/:id`: 404 when `deleteBase` reports falsy, else
`200 {success: true}`.  Returns (HTTP status, resulting database). -/
def deleteBaseRoute (db : Database) (id : Nat) : Nat × Database :=
  let r := deleteBase db id
  if r.2 then (200, r.1) else (404, r.1)

/-! ## `getWorkshops` -/

/-- `DatabaseStorage.getWorkshops`: optional filter by `baseId` (the parameter
is tested with JavaScript truthiness, so `0` disables the filter), ordered by
workshop name. -/
def getWorkshops (db : Database) (baseId : Option Nat) : List WorkshopRow :=
  let rows := match baseId with
    | none => db.workshops
    | some n => if n == 0 then db.workshops else db.workshops.filter fun w => w.baseId == n
  List.insertionSort (fun a b => strLe a.workshopName b.workshopName = true) rows

/-! ## `getEquipments` and `GET /api/equipment` -/

/-- Result row of the equipment listing query: equipment joined with its
workshop, its equipment type, and the workshop's base. -/
structure EqRow where
  equipmentId : Nat
  workshopId : Nat
  typeId : Nat
  equipmentName : String
  createdAt : Nat
  updatedAt : Nat
  workshopName : String
  typeName : String
  baseId : Nat
  baseName : String
deriving DecidableEq

/-- Parameters of `getEquipments` (all optional, as in the TypeScript
signature). -/
structure EquipParams where
  workshopId : Option Nat := none
  typeId : Option Nat := none
  baseId : Option Nat := none
  search : Option String := none
  page : Option Nat := none
  limit : Option Nat := none
  sortBy : Option String := none
  sortOrder : Option String := none
deriving DecidableEq

/-- The three `INNER JOIN`s of the equipment listing query as a nested-loop
join, producing one `EqRow` per matching combination. -/
def equipJoinedRows (db : Database) : List EqRow :=
  db.equipment.flatMap fun e =>
    (db.workshops.filter fun w => w.workshopId == e.workshopId).flatMap fun w =>
      (db.equipmentTypes.filter fun t => t.typeId == e.typeId).flatMap fun t =>
        (db.bases.filter fun b => b.baseId == w.baseId).map fun b =>
          { equipmentId := e.equipmentId
            workshopId := e.workshopId
            typeId := e.typeId
            equipmentName := e.equipmentName
            createdAt := e.createdAt
            updatedAt := e.updatedAt
            workshopName := w.workshopName
            typeName := t.typeName
            baseId := w.baseId
            baseName := b.baseName }

/-- The conjunction of the conditions `getEquipments` pushes: `workshopId`,
`typeId`, `search` and `baseId` are each tested with JavaScript truthiness
(`0` and `""` disable the corresponding condition). -/
def eqCondHolds (p : EquipParams) (r : EqRow) : Bool :=
  (match p.workshopId with
   | none => true
   | some n => if n == 0 then true else r.workshopId == n) &&
  (match p.typeId with
   | none => true
   | some n => if n == 0 then true else r.typeId == n) &&
  (match p.search with
   | none => true
   | some s => if s == "" then true else strIncludes r.equipmentName s) &&
  (match p.baseId with
   | none => true
   | some n => if n == 0 then true else r.baseId == n)

/-- The joined rows that satisfy the filters — both the data query and the
`count(*)` query of `getEquipments` apply exactly these conditions. -/
def eqMatching (db : Database) (p : EquipParams) : List EqRow :=
  (equipJoinedRows db).filter (eqCondHolds p)

/-- The `ORDER BY` dispatch of `getEquipments`: one branch per recognised
`sortBy` value and direction; any other `sortBy` (including the default
`'equipment_id'`) leaves the rows unsorted. -/
def sortEquipRows (sortBy sortOrder : String) (l : List EqRow) : List EqRow :=
  match sortOrder with
  | "asc" =>
    match sortBy with
    | "equipmentId" => List.insertionSort (fun a b => a.equipmentId ≤ b.equipmentId) l
    | "equipmentName" => List.insertionSort (fun a b => strLe a.equipmentName b.equipmentName = true) l
    | "workshopName" => List.insertionSort (fun a b => strLe a.workshopName b.workshopName = true) l
    | "typeName" => List.insertionSort (fun a b => strLe a.typeName b.typeName = true) l
    | "baseName" => List.insertionSort (fun a b => strLe a.baseName b.baseName = true) l
    | "createdAt" => List.insertionSort (fun a b => a.createdAt ≤ b.createdAt) l
    | _ => l
  | _ =>
    match sortBy with
    | "equipmentId" => List.insertionSort (fun a b => b.equipmentId ≤ a.equipmentId) l
    | "equipmentName" => List.insertionSort (fun a b => strLe b.equipmentName a.equipmentName = true) l
    | "workshopName" => List.insertionSort (fun a b => strLe b.workshopName a.workshopName = true) l
    | "typeName" => List.insertionSort (fun a b => strLe b.typeName a.typeName = true) l
    | "baseName" => List.insertionSort (fun a b => strLe b.baseName a.baseName = true) l
    | "createdAt" => List.insertionSort (fun a b => b.createdAt ≤ a.createdAt) l
    | _ => l

/-- Result of `getEquipments`: a page of joined rows and the filtered total. -/
structure EquipResult where
  data : List EqRow
  total : Nat
deriving DecidableEq

/-- `DatabaseStorage.getEquipments`: defaults `page = 1`, `limit = 10`,
`sortBy = 'equipment_id'`, `sortOrder = 'asc'`; joins, filters, counts the
filtered rows, sorts when `sortBy && sortOrder` is truthy, then applies
`offset((page-1)*limit).limit(limit)`. -/
def getEquipments (db : Database) (p : EquipParams) : EquipResult :=
  { data :=
      (((if p.sortBy.getD "equipment_id" ≠ "" ∧ p.sortOrder.getD "asc" ≠ "" then
           sortEquipRows (p.sortBy.getD "equipment_id") (p.sortOrder.getD "asc")
             (eqMatching db p)
         else eqMatching db p).drop
          ((p.page.getD 1 - 1) * p.limit.getD 10)).take (p.limit.getD 10))
    total := (eqMatching db p).length }

/-- Pagination block of the `GET /api/equipment` response. -/
structure Pagination where
  page : Nat
  limit : Nat
  total : Nat
  totalPages : Nat
deriving DecidableEq

/-- Body of the `GET /api/equipment` response. -/
structure EquipListResponse where
  data : List EqRow
  pagination : Pagination
deriving DecidableEq

/-- The parameter object the `GET /api/equipment` handler passes to
`getEquipments`: `page` defaults to 1 and `limit` to 10 when the query string
is absent, `sortOrder` defaults to `'asc'`. -/
def routeEquipParams (q : EquipParams) : EquipParams :=
  { workshopId := q.workshopId
    typeId := q.typeId
    baseId := q.baseId
    search := q.search
    page := some (q.page.getD 1)
    limit := some (q.limit.getD 10)
    sortBy := q.sortBy
    sortOrder := some (q.sortOrder.getD "asc") }

/-- `GET /api/equipment`: calls `getEquipments` and wraps the result with
`totalPages = Math.ceil(total / limit)` (for a positive integer `limit`,
`⌈total / limit⌉ = (total + limit - 1) / limit` in integer arithmetic). -/
def equipmentListRoute (db : Database) (q : EquipParams) : EquipListResponse :=
  { data := (getEquipments db (routeEquipParams q)).data
    pagination :=
      { page := q.page.getD 1
        limit := q.limit.getD 10
        total := (getEquipments db (routeEquipParams q)).total
        totalPages :=
          ((getEquipments db (routeEquipParams q)).total + q.limit.getD 10 - 1) /
            q.limit.getD 10 } }

/-- Specification-side ordering predicate for the claim "ordered by the
requested sort field in the requested direction". -/
def fieldLe (sortBy : String) (a b : EqRow) : Prop :=
  match sortBy with
  | "equipmentId" => a.equipmentId ≤ b.equipmentId
  | "equipmentName" => strLe a.equipmentName b.equipmentName = true
  | "workshopName" => strLe a.workshopName b.workshopName = true
  | "typeName" => strLe a.typeName b.typeName = true
  | "baseName" => strLe a.baseName b.baseName = true
  | "createdAt" => a.createdAt ≤ b.createdAt
  | _ => True

/-- "Ordered by `sortBy` in direction `sortOrder`": ascending uses
`fieldLe sortBy`, descending its reverse. -/
def requestedOrder (sortBy sortOrder : String) (a b : EqRow) : Prop :=
  match sortOrder with
  | "asc" => fieldLe sortBy a b
  | _ => fieldLe sortBy b a

/-! ## `getAssociations` and `GET /api/associations` -/

/-- Parameters of `getAssociations`. -/
structure AssocParams where
  equipmentId : Option Nat := none
  componentId : Option Nat := none
  sparePartId : Option Nat := none
  importanceLevel : Option (List String) := none
  supplyCycleRange : Option (Int × Int) := none
  isCustom : Option Bool := none
  keyword : Option String := none
deriving DecidableEq

/-- A row of the association query before projection: the association joined
(`INNER`) with equipment, component and spare part, and (`LEFT`) with a
supplier of that spare part (`none` when the spare part has no supplier). -/
structure AJRow where
  assoc : AssocRow
  equipment : EquipmentRow
  component : ComponentRow
  sparePart : SparePartRow
  supplier : Option SparePartSupplierRow
deriving DecidableEq

/-- The join combinations contributed by one association row: the three inner
joins, then the left join against `spare_part_supplier` (one output row per
matching supplier, or a single row with no supplier). -/
def expandAssoc (db : Database) (a : AssocRow) : List AJRow :=
  (db.equipment.filter fun e => e.equipmentId == a.equipmentId).flatMap fun e =>
    (db.components.filter fun c => c.componentId == a.componentId).flatMap fun c =>
      (db.spareParts.filter fun sp => sp.sparePartId == a.sparePartId).flatMap fun sp =>
        let ms := db.sparePartSuppliers.filter fun s => s.sparePartId == sp.sparePartId
        if ms.isEmpty then [⟨a, e, c, sp, none⟩]
        else ms.map fun s => ⟨a, e, c, sp, some s⟩

/-- All joined rows of the `getAssociations` query. -/
def assocJoinedRows (db : Database) : List AJRow :=
  db.associations.flatMap (expandAssoc db)

/-- The conjunction of the conditions `getAssociations` pushes.  The three id
filters use JavaScript truthiness (`0` disables them); the importance filter
applies only to a non-empty list; the supply-cycle range compares the
left-joined supplier's weeks (a row with no supplier fails the comparison, as
SQL `NULL` comparisons are not true); the keyword is a five-way `LIKE` OR. -/
def assocCondHolds (p : AssocParams) (j : AJRow) : Bool :=
  (match p.equipmentId with
   | none => true
   | some n => if n == 0 then true else j.assoc.equipmentId == n) &&
  (match p.componentId with
   | none => true
   | some n => if n == 0 then true else j.assoc.componentId == n) &&
  (match p.sparePartId with
   | none => true
   | some n => if n == 0 then true else j.assoc.sparePartId == n) &&
  (match p.importanceLevel with
   | none => true
   | some ls => if ls.isEmpty then true else ls.contains j.component.importanceLevel) &&
  (match p.supplyCycleRange with
   | none => true
   | some r =>
     match j.supplier with
     | none => false
     | some s => r.1 ≤ s.supplyCycleWeeks && s.supplyCycleWeeks ≤ r.2) &&
  (match p.isCustom with
   | none => true
   | some b => j.sparePart.isCustom == b) &&
  (match p.keyword with
   | none => true
   | some k =>
     if k == "" then true
     else
       strIncludes j.sparePart.materialCode k ||
       optIncludes j.sparePart.description k ||
       optIncludes j.sparePart.specification k ||
       strIncludes j.equipment.equipmentName k ||
       strIncludes j.component.componentName k)

/-- Joined rows passing all supplied filters. -/
def getAssociationsFiltered (db : Database) (p : AssocParams) : List AJRow :=
  (assocJoinedRows db).filter (assocCondHolds p)

/-- `ORDER BY equipment_name, component_name` of the association query. -/
def assocOrderRel (a b : AJRow) : Prop :=
  (strLt a.equipment.equipmentName b.equipment.equipmentName ||
   (a.equipment.equipmentName == b.equipment.equipmentName &&
    strLe a.component.componentName b.component.componentName)) = true

instance : DecidableRel assocOrderRel := fun a b => by
  unfold assocOrderRel; infer_instance

/-- The projected result row of `getAssociations` (note: `sparePartName` is
selected from the spare part's `description` column). -/
structure AssocOut where
  id : Nat
  equipmentId : Nat
  componentId : Nat
  sparePartId : Nat
  quantity : Option Int
  createdAt : Nat
  updatedAt : Nat
  equipmentName : String
  componentName : String
  importanceLevel : String
  materialCode : String
  sparePartName : Option String
  specification : Option String
  manufacturer : String
deriving DecidableEq

/-- The `select({...})` projection of the association query. -/
def projectAssoc (j : AJRow) : AssocOut :=
  { id := j.assoc.id
    equipmentId := j.assoc.equipmentId
    componentId := j.assoc.componentId
    sparePartId := j.assoc.sparePartId
    quantity := j.assoc.quantity
    createdAt := j.assoc.createdAt
    updatedAt := j.assoc.updatedAt
    equipmentName := j.equipment.equipmentName
    componentName := j.component.componentName
    importanceLevel := j.component.importanceLevel
    materialCode := j.sparePart.materialCode
    sparePartName := j.sparePart.description
    specification := j.sparePart.specification
    manufacturer := j.sparePart.manufacturer }

/-- `DatabaseStorage.getAssociations`: join, filter, order, project. -/
def getAssociations (db : Database) (p : AssocParams) : List AssocOut :=
  (List.insertionSort assocOrderRel (getAssociationsFiltered db p)).map projectAssoc

/-- Specification-side statement of the five-way keyword match of the
association listing: the keyword occurs in the spare part's material code,
description, specification, the equipment's name, or the component's name. -/
def keywordHit (k : String) (j : AJRow) : Prop :=
  hasSubstr j.sparePart.materialCode k ∨
  (∃ d, j.sparePart.description = some d ∧ hasSubstr d k) ∨
  (∃ s, j.sparePart.specification = some s ∧ hasSubstr s k) ∨
  hasSubstr j.equipment.equipmentName k ∨
  hasSubstr j.component.componentName k

/-! ## Spare-part creation: `POST /api/spare-parts` -/

/-- A validated `insertSparePartSchema` body. -/
structure InsertSparePart where
  materialCode : String
  manufacturer : String
  manufacturerMaterialCode : Option String
  specification : Option String
  description : Option String
  isCustom : Bool
deriving DecidableEq

/-- The next value of the `spare_part_id` serial sequence (modelled as one
more than the largest id in the table). -/
def nextSparePartId (db : Database) : Nat :=
  db.spareParts.foldl (fun m sp => max m sp.sparePartId) 0 + 1

/-- `DatabaseStorage.createSparePart`: insert the row, timestamps from the
database clock `now`. -/
def createSparePart (db : Database) (now : Nat) (d : InsertSparePart) : Database × SparePartRow :=
  let row : SparePartRow :=
    { sparePartId := nextSparePartId db
      materialCode := d.materialCode
      manufacturer := d.manufacturer
      manufacturerMaterialCode := d.manufacturerMaterialCode
      specification := d.specification
      description := d.description
      isCustom := d.isCustom
      createdAt := now
      updatedAt := now }
  ({ db with spareParts := db.spareParts ++ [row] }, row)

/-- `POST /api/spare-parts` on a validated body: 400 when the material code
already exists, otherwise create and answer 201.  Returns (HTTP status,
resulting database). -/
def createSparePartRoute (db : Database) (now : Nat) (d : InsertSparePart) : Nat × Database :=
  match getSparePartByMaterialCode db d.materialCode with
  | some _ => (400, db)
  | none => (201, (createSparePart db now d).1)

/-! ## JavaScript property access used by the equipment hierarchy handler

The handler reads `sparePart.sparePartName` from a `spare_part` record and
`association.supplyCycle` from a `getAssociations` result row.  Property
access on a JavaScript object yields the field's value when the key is
declared and `undefined` otherwise; these lookups are modelled by total
functions over the declared keys, returning `none` for any other key. -/

/-- A JavaScript field value. -/
inductive JsVal where
  | str : String → JsVal
  | num : Int → JsVal
  | boolean : Bool → JsVal
  | null : JsVal
deriving DecidableEq

/-- A nullable text column as a JavaScript value. -/
def optStrVal : Option String → JsVal
  | none => .null
  | some s => .str s

/-- Property access on a `spare_part` record: exactly the columns declared in
the schema are present. -/
def sparePartField (sp : SparePartRow) : String → Option JsVal
  | "sparePartId" => some (.num sp.sparePartId)
  | "materialCode" => some (.str sp.materialCode)
  | "manufacturer" => some (.str sp.manufacturer)
  | "manufacturerMaterialCode" => some (optStrVal sp.manufacturerMaterialCode)
  | "specification" => some (optStrVal sp.specification)
  | "description" => some (optStrVal sp.description)
  | "isCustom" => some (.boolean sp.isCustom)
  | "createdAt" => some (.num sp.createdAt)
  | "updatedAt" => some (.num sp.updatedAt)
  | _ => none

/-- Property access on a `getAssociations` result row: exactly the keys of the
query's `select({...})` projection are present. -/
def assocOutField (r : AssocOut) : String → Option JsVal
  | "id" => some (.num r.id)
  | "equipmentId" => some (.num r.equipmentId)
  | "componentId" => some (.num r.componentId)
  | "sparePartId" => some (.num r.sparePartId)
  | "quantity" => some (match r.quantity with | none => .null | some q => .num q)
  | "createdAt" => some (.num r.createdAt)
  | "updatedAt" => some (.num r.updatedAt)
  | "equipmentName" => some (.str r.equipmentName)
  | "componentName" => some (.str r.componentName)
  | "importanceLevel" => some (.str r.importanceLevel)
  | "materialCode" => some (.str r.materialCode)
  | "sparePartName" => some (optStrVal r.sparePartName)
  | "specification" => some (optStrVal r.specification)
  | "manufacturer" => some (.str r.manufacturer)
  | _ => none

/-! ## `GET /api/hierarchy/equipment/:id` -/

/-- `data` of a spare-part tree node: the spread spare-part record overridden
with the association row's `importanceLevel`, `supplyCycle` and `quantity`
(`supplyCycle` is read from a key the result row does not declare). -/
structure SpNodeData where
  sparePart : SparePartRow
  importanceLevel : String
  supplyCycle : Option JsVal
  quantity : Option Int
deriving DecidableEq

/-- A spare-part tree node; its `name` is read from the undeclared key
`sparePartName` of the spare-part record. -/
structure SpNode where
  id : Nat
  name : Option JsVal
  type : String
  data : SpNodeData
deriving DecidableEq

/-- A component tree node. -/
structure CompNode where
  id : Nat
  name : String
  type : String
  data : ComponentRow
  children : List SpNode
deriving DecidableEq

/-- The root of the equipment hierarchy response. -/
structure EquipHierarchy where
  id : Nat
  name : String
  type : String
  data : EquipmentRow
  children : List CompNode
deriving DecidableEq

/-- An entry of the handler's `componentsMap`: the component record and the
spare-part/association pairs pushed for it. -/
structure CompEntry where
  component : ComponentRow
  spareParts : List (SparePartRow × AssocOut)
deriving DecidableEq

/-- `componentsMap.has(key)` for the insertion-ordered map. -/
def mapHasKey (m : List (Nat × CompEntry)) (k : Nat) : Bool :=
  m.any fun p => p.1 == k

/-- Push an item onto the spare-part list of the entry with key `k` (the first
matching entry, as in a JavaScript `Map`). -/
def mapPush (m : List (Nat × CompEntry)) (k : Nat) (it : SparePartRow × AssocOut) :
    List (Nat × CompEntry) :=
  match m with
  | [] => []
  | (k', e) :: rest =>
    if k' == k then (k', { e with spareParts := e.spareParts ++ [it] }) :: rest
    else (k', e) :: mapPush rest k it

/-- One iteration of the handler's grouping loop: ensure a map entry for the
row's component (skipped when `getComponent` finds nothing), then push the
row's spare part (skipped when `getSparePart` finds nothing). -/
def hierStep (db : Database) (m : List (Nat × CompEntry)) (r : AssocOut) :
    List (Nat × CompEntry) :=
  let m1 :=
    if mapHasKey m r.componentId then m
    else
      match getComponent db r.componentId with
      | some c => m ++ [(r.componentId, CompEntry.mk c [])]
      | none => m
  if mapHasKey m1 r.componentId then
    match getSparePart db r.sparePartId with
    | some sp => mapPush m1 r.componentId (sp, r)
    | none => m1
  else m1

/-- The handler's `componentsMap` after processing all association rows. -/
def buildComponentsMap (db : Database) (rows : List AssocOut) : List (Nat × CompEntry) :=
  rows.foldl (hierStep db) []

/-- `GET /api/hierarchy/equipment/:id`: 404 (`none`) when the equipment does
not exist, else the nested tree grouped by component. -/
def hierarchyEquipment (db : Database) (eid : Nat) : Option EquipHierarchy :=
  match getEquipment db eid with
  | none => none
  | some e =>
    let associations := getAssociations db { equipmentId := some eid }
    let m := buildComponentsMap db associations
    some
      { id := e.equipmentId
        name := e.equipmentName
        type := "设备"
        data := e
        children := m.map fun p =>
          { id := p.1
            name := p.2.component.componentName
            type := "部件"
            data := p.2.component
            children := p.2.spareParts.map fun it =>
              { id := it.1.sparePartId
                name := sparePartField it.1 "sparePartName"
                type := "备件"
                data :=
                  { sparePart := it.1
                    importanceLevel := it.2.importanceLevel
                    supplyCycle := assocOutField it.2 "supplyCycle"
                    quantity := it.2.quantity } } } }

/-! ## `GET /api/hierarchy/base/:id`

Two handlers are registered for this path; Express dispatches to the first
one, which fetches each workshop's equipment with `limit: 100`. -/

/-- An equipment leaf of the base hierarchy. -/
structure EqNode where
  id : Nat
  name : String
  type : String
  data : EqRow
deriving DecidableEq

/-- A workshop node of the base hierarchy. -/
structure WsNode where
  id : Nat
  name : String
  type : String
  data : WorkshopRow
  children : List EqNode
deriving DecidableEq

/-- The root of the base hierarchy response. -/
structure BaseHierarchy where
  id : Nat
  name : String
  type : String
  data : BaseRow
  children : List WsNode
deriving DecidableEq

/-- `GET /api/hierarchy/base/:id` (the first registered handler): 404 (`none`)
when the base does not exist, else workshops with their equipment fetched via
`getEquipments({ workshopId, limit: 100 })`. -/
def hierarchyBase (db : Database) (bid : Nat) : Option BaseHierarchy :=
  match getBase db bid with
  | none => none
  | some b =>
    some
      { id := b.baseId
        name := b.baseName
        type := "基地"
        data := b
        children := (getWorkshops db (some bid)).map fun w =>
          { id := w.workshopId
            name := w.workshopName
            type := "车间"
            data := w
            children :=
              (getEquipments db { workshopId := some w.workshopId, limit := some 100 }).data.map
                fun e =>
                  { id := e.equipmentId
                    name := e.equipmentName
                    type := "设备"
                    data := e } } }

/-! ## Claim-side helper definitions -/

/-- The association rows of one equipment. -/
def assocsFor (db : Database) (eid : Nat) : List AssocRow :=
  db.associations.filter fun a => a.equipmentId == eid

/-- Number of supplier rows of one spare part. -/
def supplierCountFor (db : Database) (spid : Nat) : Nat :=
  (db.sparePartSuppliers.filter fun s => s.sparePartId == spid).length

/-- The hypothesis of the hierarchy claim: the equipment's association rows
are exactly four, tying two distinct components each to two distinct spare
parts. -/
def twoByTwoPremise (db : Database) (eid : Nat) : Prop :=
  ∃ c1 c2 s11 s12 s21 s22 : Nat, c1 ≠ c2 ∧ s11 ≠ s12 ∧ s21 ≠ s22 ∧
    ((assocsFor db eid).map fun a => (a.componentId, a.sparePartId)).Perm
      [(c1, s11), (c1, s12), (c2, s21), (c2, s22)]

/-! ## Concrete databases used as witnesses and counterexamples -/

/-- A database holding a single base and nothing else. -/
def dbOneBase : Database := ⟨[⟨1, "Base A", 0, 0⟩], [], [], [], [], [], [], []⟩

/-- A database holding one base and one workshop. -/
def dbBaseWs : Database :=
  ⟨[⟨1, "Base A", 0, 0⟩], [⟨1, 1, "W", "1", 0, 0⟩], [], [], [], [], [], []⟩

/-- A database with a full chain: base, workshop, type, one equipment, one
component, one spare part (no supplier), one association. -/
def dbChain : Database :=
  { bases := [⟨1, "Base A", 0, 0⟩]
    workshops := [⟨1, 1, "W", "1", 0, 0⟩]
    equipmentTypes := [⟨1, "T", none, 0, 0⟩]
    equipment := [⟨1, 1, 1, "E", 0, 0⟩]
    components := [⟨1, 1, "C1", "A", none, none, 0, 0⟩]
    spareParts := [⟨1, "M1", "mfr", none, none, none, false, 0, 0⟩]
    sparePartSuppliers := []
    associations := [⟨1, 1, 1, 1, some 1, 0, 0⟩] }

/-- One equipment with two components, each associated to the same two spare
parts; spare part 1 has **two** suppliers (both with supply cycles in `[2,6]`),
spare part 2 has none. -/
def dbDup : Database :=
  { bases := [⟨1, "Base A", 0, 0⟩]
    workshops := [⟨1, 1, "W", "1", 0, 0⟩]
    equipmentTypes := [⟨1, "T", none, 0, 0⟩]
    equipment := [⟨1, 1, 1, "E", 0, 0⟩]
    components := [⟨1, 1, "C1", "A", none, none, 0, 0⟩, ⟨2, 1, "C2", "A", none, none, 0, 0⟩]
    spareParts := [⟨1, "M1", "mfr", none, none, none, false, 0, 0⟩,
                   ⟨2, "M2", "mfr", none, none, none, false, 0, 0⟩]
    sparePartSuppliers := [⟨1, 1, "S1", 3, 0, 0⟩, ⟨2, 1, "S2", 5, 0, 0⟩]
    associations := [⟨1, 1, 1, 1, some 1, 0, 0⟩, ⟨2, 1, 1, 2, some 1, 0, 0⟩,
                     ⟨3, 1, 2, 1, some 1, 0, 0⟩, ⟨4, 1, 2, 2, some 1, 0, 0⟩] }

/-- As `dbDup`, but spare part 1 has a single supplier (and spare part 2 none),
so every involved spare part has at most one supplier row. -/
def dbQuad : Database :=
  { dbDup with sparePartSuppliers := [⟨1, 1, "S1", 3, 0, 0⟩] }

/-- A database holding a single spare part with material code `"M1"`. -/
def dbOneSparePart : Database :=
  ⟨[], [], [], [], [], [⟨1, "M1", "mfr", none, none, none, false, 0, 0⟩], [], []⟩

/-- The association listing row produced for the single association of
`dbChain` (also produced, among others, for `dbDup`). -/
def assocOutChain : AssocOut :=
  ⟨1, 1, 1, 1, some 1, 0, 0, "E", "C1", "A", "M1", none, none, "mfr"⟩

/-- The spare-part node of the equipment hierarchy of `dbChain`. -/
def hierSnChain : SpNode :=
  ⟨1, none, "备件", ⟨⟨1, "M1", "mfr", none, none, none, false, 0, 0⟩, "A", none, some 1⟩⟩

/-- The component node of the equipment hierarchy of `dbChain`. -/
def hierChChain : CompNode :=
  ⟨1, "C1", "部件", ⟨1, 1, "C1", "A", none, none, 0, 0⟩, [hierSnChain]⟩

/-- The equipment hierarchy tree of `dbChain`. -/
def hierTChain : EquipHierarchy :=
  ⟨1, "E", "设备", ⟨1, 1, 1, "E", 0, 0⟩, [hierChChain]⟩

/-- The workshop node of the base hierarchy of `dbBaseWs`. -/
def wsNodeBaseWs : WsNode := ⟨1, "W", "车间", ⟨1, 1, "W", "1", 0, 0⟩, []⟩

/-- The base hierarchy tree of `dbBaseWs`. -/
def baseTreeBaseWs : BaseHierarchy :=
  ⟨1, "Base A", "基地", ⟨1, "Base A", 0, 0⟩, [wsNodeBaseWs]⟩

/-- Invariant of the hierarchy handler's grouping loop after processing the
rows `done`: the map keys are duplicate-free and are exactly the component ids
seen so far, each entry holds one pushed item per processed row of its
component, and every pushed item pairs a processed row with the spare-part
record found for it. -/
def MapInv (done : List AssocOut) (m : List (Nat × CompEntry)) : Prop :=
  (m.map (·.1)).Nodup ∧
  (∀ k, mapHasKey m k = true ↔ k ∈ done.map (·.componentId)) ∧
  (∀ p ∈ m, p.2.spareParts.length = done.countP fun r => r.componentId == p.1) ∧
  (∀ p ∈ m, ∀ it ∈ p.2.spareParts,
    it.2 ∈ done ∧ it.2.componentId = p.1 ∧ it.1.sparePartId = it.2.sparePartId)

/-! # Theorems -/

/-! ## Order-theoretic facts about the modelled text ordering -/

theorem listCharLe_total (as bs : List Char) :
    listCharLe as bs = true ∨ listCharLe bs as = true := by
  induction as generalizing bs with
  | nil => left; rfl
  | cons a as ih =>
    cases bs with
    | nil => right; rfl
    | cons b bs =>
      rcases Nat.lt_trichotomy a.toNat b.toNat with h | h | h
      · left; simp [listCharLe, h]
      · rcases ih bs with h' | h'
        · left; simp [listCharLe, h, h']
        · right; simp [listCharLe, h, h']
      · right; simp [listCharLe, h]

theorem listCharLe_trans (as bs cs : List Char) (h1 : listCharLe as bs = true)
    (h2 : listCharLe bs cs = true) : listCharLe as cs = true := by
  induction as generalizing bs cs with
  | nil => rfl
  | cons a as ih =>
    cases bs with
    | nil => simp [listCharLe] at h1
    | cons b bs =>
      cases cs with
      | nil => simp [listCharLe] at h2
      | cons c cs =>
        rcases Nat.lt_trichotomy a.toNat b.toNat with hab | hab | hab
        · rcases Nat.lt_trichotomy b.toNat c.toNat with hbc | hbc | hbc
          · simp [listCharLe, show a.toNat < c.toNat by omega]
          · simp [listCharLe, show a.toNat < c.toNat by omega]
          · simp [listCharLe, show ¬ b.toNat < c.toNat by omega, hbc] at h2
        · rcases Nat.lt_trichotomy b.toNat c.toNat with hbc | hbc | hbc
          · simp [listCharLe, show a.toNat < c.toNat by omega]
          · simp only [listCharLe, show ¬ a.toNat < b.toNat by omega,
              show ¬ b.toNat < a.toNat by omega, if_false, if_neg] at h1
            simp only [listCharLe, show ¬ b.toNat < c.toNat by omega,
              show ¬ c.toNat < b.toNat by omega, if_false, if_neg] at h2
            simp only [listCharLe, show ¬ a.toNat < c.toNat by omega,
              show ¬ c.toNat < a.toNat by omega, if_false, if_neg]
            exact ih bs cs h1 h2
          · simp [listCharLe, show ¬ b.toNat < c.toNat by omega, hbc] at h2
        · simp [listCharLe, show ¬ a.toNat < b.toNat by omega, hab] at h1

theorem strLe_total (s t : String) : strLe s t = true ∨ strLe t s = true :=
  listCharLe_total s.data t.data

theorem strLe_trans (s t u : String) (h1 : strLe s t = true) (h2 : strLe t u = true) :
    strLe s u = true :=
  listCharLe_trans s.data t.data u.data h1 h2

/-- A sorted permutation whose slice is the slice of the insertion sort. -/
theorem exists_sorted_slice {α : Type} (rel : α → α → Prop) [DecidableRel rel]
    (tot : ∀ a b, rel a b ∨ rel b a) (tran : ∀ a b c, rel a b → rel b c → rel a c)
    (l : List α) (off lim : Nat) :
    ∃ s : List α, s.Perm l ∧ List.Sorted rel s ∧
      ((List.insertionSort rel l).drop off).take lim = (s.drop off).take lim := by
  haveI : IsTotal α rel := ⟨tot⟩
  haveI : IsTrans α rel := ⟨tran⟩
  exact ⟨_, List.perm_insertionSort rel l, List.sorted_insertionSort rel l, rfl⟩

/-- `(t + l - 1) / l` is the ceiling of `t / l` for positive `l`:
characterised as the least multiple bound. -/
theorem ceilDiv_mul_bounds (t l : Nat) (hl : 1 ≤ l) :
    t ≤ ((t + l - 1) / l) * l ∧ ((t + l - 1) / l) * l < t + l := by
  have h1 := Nat.div_add_mod (t + l - 1) l
  have h2 : (t + l - 1) % l < l := Nat.mod_lt _ hl
  obtain ⟨h3, h4⟩ : t ≤ l * ((t + l - 1) / l) ∧ l * ((t + l - 1) / l) < t + l := by
    generalize (t + l - 1) % l = r at h1 h2
    generalize l * ((t + l - 1) / l) = x at h1
    omega
  exact ⟨by rw [Nat.mul_comm]; exact h3, by rw [Nat.mul_comm]; exact h4⟩

/-! ## Truthiness of numeric filters (claim on zero-valued parameters) -/

/-- C9: a numeric filter parameter equal to `0` is treated as absent, because
`storage.ts` tests filter presence with JavaScript truthiness: `getWorkshops 0`
behaves like `getWorkshops undefined` and returns every workshop, and the
zero-valued `workshopId`/`typeId`/`baseId` filters of `getEquipments` and
`equipmentId`/`componentId`/`sparePartId` filters of `getAssociations` are
likewise ignored rather than matching the empty set. -/
theorem zero_filter_treated_as_absent (db : Database) (p : EquipParams) (q : AssocParams) :
    getWorkshops db (some 0) = getWorkshops db none ∧
    (getWorkshops db (some 0)).Perm db.workshops ∧
    getEquipments db { p with workshopId := some 0 } =
      getEquipments db { p with workshopId := none } ∧
    getEquipments db { p with typeId := some 0 } =
      getEquipments db { p with typeId := none } ∧
    getEquipments db { p with baseId := some 0 } =
      getEquipments db { p with baseId := none } ∧
    getAssociations db { q with equipmentId := some 0 } =
      getAssociations db { q with equipmentId := none } ∧
    getAssociations db { q with componentId := some 0 } =
      getAssociations db { q with componentId := none } ∧
    getAssociations db { q with sparePartId := some 0 } =
      getAssociations db { q with sparePartId := none } :=
  ⟨rfl, List.perm_insertionSort _ _, rfl, rfl, rfl, rfl, rfl, rfl⟩

/-! ## `DELETE /api/bases/:id` on a missing id (claimed 404) -/

/-- C3 exhibit: `deleteBase` returns the truthiness of the driver's result
object, which is `true` regardless of whether any row matched, so the
handler's 404 branch is unreachable: deleting a non-existent base id answers
`200 {success: true}` (shown concretely on a database whose only base has id
1, and generally for every database and id). -/
theorem deleteBase_missing_id_returns_200 :
    (deleteBaseRoute dbOneBase 99).1 = 200 ∧
    (∀ b ∈ dbOneBase.bases, b.baseId ≠ 99) ∧
    ∀ (db : Database) (id : Nat), (deleteBaseRoute db id).1 = 200 :=
  ⟨rfl, by decide, fun _ _ => rfl⟩

/-! ## Base hierarchy truncation at 100 equipment per workshop -/

/-- C10: the base hierarchy handler fetches each workshop's equipment with
`limit: 100` (and default `page = 1`), so every workshop node of the response
carries at most 100 equipment children. -/
theorem hierarchyBase_children_le_100 (db : Database) (bid : Nat) (t : BaseHierarchy)
    (h : hierarchyBase db bid = some t) :
    ∀ w ∈ t.children, w.children.length ≤ 100 := by
  intro w hw
  unfold hierarchyBase at h
  cases hb : getBase db bid with
  | none => rw [hb] at h; cases h
  | some b =>
    rw [hb] at h
    injection h with h
    subst h
    simp only [List.mem_map] at hw
    obtain ⟨ws, _, rfl⟩ := hw
    simp only [getEquipments, List.length_map]
    exact le_trans (List.length_take_le _ _) (by norm_num)

/-- Witness for the base hierarchy truncation claim at a concrete database. -/
theorem hierarchyBase_children_le_100_witness : wsNodeBaseWs.children.length ≤ 100 :=
  hierarchyBase_children_le_100 dbBaseWs 1 baseTreeBaseWs (by decide) wsNodeBaseWs (by decide)

/-! ## Spare-part creation and the unique material code -/

/-- C6: `POST /api/spare-parts` with a validated body is rejected with HTTP
400 — leaving the table unchanged — exactly when some existing spare part
already carries the requested material code; with a fresh material code it
answers HTTP 201 and appends the new row. -/
theorem createSparePart_materialCode_conflict (db : Database) (now : Nat) (d : InsertSparePart) :
    ((∃ sp ∈ db.spareParts, sp.materialCode = d.materialCode) →
      (createSparePartRoute db now d).1 = 400 ∧
      (createSparePartRoute db now d).2 = db) ∧
    ((∀ sp ∈ db.spareParts, sp.materialCode ≠ d.materialCode) →
      (createSparePartRoute db now d).1 = 201 ∧
      (createSparePartRoute db now d).2.spareParts =
        db.spareParts ++ [(createSparePart db now d).2]) := by
  unfold createSparePartRoute
  cases hfind : getSparePartByMaterialCode db d.materialCode with
  | some sp =>
    refine ⟨fun _ => ⟨rfl, rfl⟩, fun hnone => absurd ?_ (hnone sp ?_)⟩
    · have := List.find?_some hfind
      exact of_decide_eq_true this
    · exact List.mem_of_find?_eq_some hfind
  | none =>
    refine ⟨fun hsome => ?_, fun _ => ⟨rfl, rfl⟩⟩
    obtain ⟨sp, hmem, hcode⟩ := hsome
    have := List.find?_eq_none.mp hfind sp hmem
    simp [hcode] at this

/-- Witness for the material-code conflict claim: on a table holding material
code `"M1"`, creating another `"M1"` gives 400 and a fresh `"M9"` gives 201. -/
theorem createSparePart_materialCode_conflict_witness :
    (createSparePartRoute dbOneSparePart 0 ⟨"M1", "m2", none, none, none, false⟩).1 = 400 ∧
    (createSparePartRoute dbOneSparePart 0 ⟨"M9", "m2", none, none, none, false⟩).1 = 201 :=
  ⟨((createSparePart_materialCode_conflict dbOneSparePart 0
      ⟨"M1", "m2", none, none, none, false⟩).1 (by decide)).1,
   ((createSparePart_materialCode_conflict dbOneSparePart 0
      ⟨"M9", "m2", none, none, none, false⟩).2 (by decide)).1⟩

/-! ## Undefined fields in the equipment hierarchy response -/

/-- C5: in every `GET /api/hierarchy/equipment/:id` response, every spare-part
node reads its `name` from `sparePart.sparePartName` and its
`data.supplyCycle` from `association.supplyCycle`; neither key is declared (the
schema has `description` on the spare part and `supplyCycleWeeks` on the
supplier), so both accesses yield `undefined`. -/
theorem hierarchy_sparePart_fields_undefined (db : Database) (eid : Nat) (t : EquipHierarchy)
    (h : hierarchyEquipment db eid = some t) :
    ∀ ch ∈ t.children, ∀ sn ∈ ch.children, sn.name = none ∧ sn.data.supplyCycle = none := by
  intro ch hch sn hsn
  unfold hierarchyEquipment at h
  cases he : getEquipment db eid with
  | none => rw [he] at h; cases h
  | some e =>
    rw [he] at h
    injection h with h
    subst h
    simp only [List.mem_map] at hch
    obtain ⟨p, _, rfl⟩ := hch
    simp only [List.mem_map] at hsn
    obtain ⟨it, _, rfl⟩ := hsn
    exact ⟨rfl, rfl⟩

/-- Witness for the undefined-fields claim at a concrete database. -/
theorem hierarchy_sparePart_fields_undefined_witness :
    hierSnChain.name = none ∧ hierSnChain.data.supplyCycle = none :=
  hierarchy_sparePart_fields_undefined dbChain 1 hierTChain (by decide)
    hierChChain (by decide) hierSnChain (by decide)

/-! ## Equipment listing: pagination, sorting, total (C1) -/

/-- With explicit page, limit and a truthy sort request, `getEquipments`
sorts the filtered rows and slices them. -/
theorem getEquipments_sorted_form (db : Database) (p : EquipParams) (f o : String)
    (pg lim : Nat) (hf : p.sortBy = some f) (ho : p.sortOrder = some o)
    (hpg : p.page = some pg) (hlim : p.limit = some lim) (hf' : f ≠ "") (ho' : o ≠ "") :
    getEquipments db p =
      { data := ((sortEquipRows f o (eqMatching db p)).drop ((pg - 1) * lim)).take lim
        total := (eqMatching db p).length } := by
  simp only [getEquipments, hf, ho, hpg, hlim, Option.getD_some]
  rw [if_pos ⟨hf', ho'⟩]

/-- The sorted-permutation-and-slice shape shared by all twelve sort
branches of the equipment listing, together with the ceiling bounds on the
page count. -/
theorem paginated_sort_shape (M : List EqRow) (rel : EqRow → EqRow → Prop) [DecidableRel rel]
    (tot : ∀ a b, rel a b ∨ rel b a) (tran : ∀ a b c, rel a b → rel b c → rel a c)
    (p l : Nat) (hl : 1 ≤ l) :
    ∃ s : List EqRow, s.Perm M ∧ List.Sorted rel s ∧
      ((List.insertionSort rel M).drop ((p - 1) * l)).take l = (s.drop ((p - 1) * l)).take l ∧
      M.length ≤ ((M.length + l - 1) / l) * l ∧ ((M.length + l - 1) / l) * l < M.length + l := by
  obtain ⟨s, h1, h2, h3⟩ := exists_sorted_slice rel tot tran M ((p - 1) * l) l
  exact ⟨s, h1, h2, h3, (ceilDiv_mul_bounds _ l hl).1, (ceilDiv_mul_bounds _ l hl).2⟩

/-- C1: for every equipment listing request with explicit page `p ≥ 1`, limit
`l ≥ 1` and a recognised sort field and direction, `GET /api/equipment`
returns exactly the `p`-th slice of size `l` (offset `(p-1)*l`) of the
filter-matching joined rows ordered by the requested field in the requested
direction; `pagination.total` equals the number of filter-matching rows and
`pagination.totalPages` is `⌈total / l⌉` (characterised by the two multiple
bounds). -/
theorem equipment_listing_paginated (db : Database) (q : EquipParams) (f o : String)
    (p l : Nat)
    (hf : f = "equipmentId" ∨ f = "equipmentName" ∨ f = "workshopName" ∨ f = "typeName" ∨
      f = "baseName" ∨ f = "createdAt")
    (ho : o = "asc" ∨ o = "desc")
    (hqf : q.sortBy = some f) (hqo : q.sortOrder = some o)
    (hqp : q.page = some p) (hql : q.limit = some l)
    (_hp : 1 ≤ p) (hl : 1 ≤ l) :
    ∃ s : List EqRow, s.Perm (eqMatching db (routeEquipParams q)) ∧
      List.Sorted (requestedOrder f o) s ∧
      (equipmentListRoute db q).data = (s.drop ((p - 1) * l)).take l ∧
      (equipmentListRoute db q).pagination.page = p ∧
      (equipmentListRoute db q).pagination.limit = l ∧
      (equipmentListRoute db q).pagination.total =
        (eqMatching db (routeEquipParams q)).length ∧
      (eqMatching db (routeEquipParams q)).length ≤
        (equipmentListRoute db q).pagination.totalPages * l ∧
      (equipmentListRoute db q).pagination.totalPages * l <
        (eqMatching db (routeEquipParams q)).length + l := by
  have hPf : (routeEquipParams q).sortBy = some f := hqf
  have hPo : (routeEquipParams q).sortOrder = some o := by
    show some (q.sortOrder.getD "asc") = some o
    rw [hqo]; rfl
  have hPp : (routeEquipParams q).page = some p := by
    show some (q.page.getD 1) = some p
    rw [hqp]; rfl
  have hPl : (routeEquipParams q).limit = some l := by
    show some (q.limit.getD 10) = some l
    rw [hql]; rfl
  have hform := getEquipments_sorted_form db (routeEquipParams q) f o p l hPf hPo hPp hPl
  simp only [equipmentListRoute, hqp, hql, Option.getD_some]
  rcases hf with rfl | rfl | rfl | rfl | rfl | rfl <;> rcases ho with rfl | rfl <;>
    rw [hform (by decide) (by decide)]
  · obtain ⟨s, h1, h2, h3, h4, h5⟩ :=
      paginated_sort_shape (eqMatching db (routeEquipParams q))
        (fun a b => a.equipmentId ≤ b.equipmentId)
        (fun a b => Nat.le_total _ _) (fun a b c hab hbc => Nat.le_trans hab hbc) p l hl
    exact ⟨s, h1, h2, h3, trivial, trivial, rfl, h4, h5⟩
  · obtain ⟨s, h1, h2, h3, h4, h5⟩ :=
      paginated_sort_shape (eqMatching db (routeEquipParams q))
        (fun a b => b.equipmentId ≤ a.equipmentId)
        (fun a b => Nat.le_total _ _) (fun a b c hab hbc => Nat.le_trans hbc hab) p l hl
    exact ⟨s, h1, h2, h3, trivial, trivial, rfl, h4, h5⟩
  · obtain ⟨s, h1, h2, h3, h4, h5⟩ :=
      paginated_sort_shape (eqMatching db (routeEquipParams q))
        (fun a b => strLe a.equipmentName b.equipmentName = true)
        (fun a b => strLe_total _ _) (fun a b c hab hbc => strLe_trans _ _ _ hab hbc) p l hl
    exact ⟨s, h1, h2, h3, trivial, trivial, rfl, h4, h5⟩
  · obtain ⟨s, h1, h2, h3, h4, h5⟩ :=
      paginated_sort_shape (eqMatching db (routeEquipParams q))
        (fun a b => strLe b.equipmentName a.equipmentName = true)
        (fun a b => strLe_total _ _) (fun a b c hab hbc => strLe_trans _ _ _ hbc hab) p l hl
    exact ⟨s, h1, h2, h3, trivial, trivial, rfl, h4, h5⟩
  · obtain ⟨s, h1, h2, h3, h4, h5⟩ :=
      paginated_sort_shape (eqMatching db (routeEquipParams q))
        (fun a b => strLe a.workshopName b.workshopName = true)
        (fun a b => strLe_total _ _) (fun a b c hab hbc => strLe_trans _ _ _ hab hbc) p l hl
    exact ⟨s, h1, h2, h3, trivial, trivial, rfl, h4, h5⟩
  · obtain ⟨s, h1, h2, h3, h4, h5⟩ :=
      paginated_sort_shape (eqMatching db (routeEquipParams q))
        (fun a b => strLe b.workshopName a.workshopName = true)
        (fun a b => strLe_total _ _) (fun a b c hab hbc => strLe_trans _ _ _ hbc hab) p l hl
    exact ⟨s, h1, h2, h3, trivial, trivial, rfl, h4, h5⟩
  · obtain ⟨s, h1, h2, h3, h4, h5⟩ :=
      paginated_sort_shape (eqMatching db (routeEquipParams q))
        (fun a b => strLe a.typeName b.typeName = true)
        (fun a b => strLe_total _ _) (fun a b c hab hbc => strLe_trans _ _ _ hab hbc) p l hl
    exact ⟨s, h1, h2, h3, trivial, trivial, rfl, h4, h5⟩
  · obtain ⟨s, h1, h2, h3, h4, h5⟩ :=
      paginated_sort_shape (eqMatching db (routeEquipParams q))
        (fun a b => strLe b.typeName a.typeName = true)
        (fun a b => strLe_total _ _) (fun a b c hab hbc => strLe_trans _ _ _ hbc hab) p l hl
    exact ⟨s, h1, h2, h3, trivial, trivial, rfl, h4, h5⟩
  · obtain ⟨s, h1, h2, h3, h4, h5⟩ :=
      paginated_sort_shape (eqMatching db (routeEquipParams q))
        (fun a b => strLe a.baseName b.baseName = true)
        (fun a b => strLe_total _ _) (fun a b c hab hbc => strLe_trans _ _ _ hab hbc) p l hl
    exact ⟨s, h1, h2, h3, trivial, trivial, rfl, h4, h5⟩
  · obtain ⟨s, h1, h2, h3, h4, h5⟩ :=
      paginated_sort_shape (eqMatching db (routeEquipParams q))
        (fun a b => strLe b.baseName a.baseName = true)
        (fun a b => strLe_total _ _) (fun a b c hab hbc => strLe_trans _ _ _ hbc hab) p l hl
    exact ⟨s, h1, h2, h3, trivial, trivial, rfl, h4, h5⟩
  · obtain ⟨s, h1, h2, h3, h4, h5⟩ :=
      paginated_sort_shape (eqMatching db (routeEquipParams q))
        (fun a b => a.createdAt ≤ b.createdAt)
        (fun a b => Nat.le_total _ _) (fun a b c hab hbc => Nat.le_trans hab hbc) p l hl
    exact ⟨s, h1, h2, h3, trivial, trivial, rfl, h4, h5⟩
  · obtain ⟨s, h1, h2, h3, h4, h5⟩ :=
      paginated_sort_shape (eqMatching db (routeEquipParams q))
        (fun a b => b.createdAt ≤ a.createdAt)
        (fun a b => Nat.le_total _ _) (fun a b c hab hbc => Nat.le_trans hbc hab) p l hl
    exact ⟨s, h1, h2, h3, trivial, trivial, rfl, h4, h5⟩

/-- Witness for the pagination claim at a concrete database and query. -/
theorem equipment_listing_paginated_witness :
    ∃ s : List EqRow,
      s.Perm (eqMatching dbChain (routeEquipParams
        { page := some 1, limit := some 10,
          sortBy := some "equipmentName", sortOrder := some "asc" })) ∧
      List.Sorted (requestedOrder "equipmentName" "asc") s ∧
      (equipmentListRoute dbChain
        { page := some 1, limit := some 10,
          sortBy := some "equipmentName", sortOrder := some "asc" }).data =
        (s.drop ((1 - 1) * 10)).take 10 ∧
      (equipmentListRoute dbChain
        { page := some 1, limit := some 10,
          sortBy := some "equipmentName", sortOrder := some "asc" }).pagination.page = 1 ∧
      (equipmentListRoute dbChain
        { page := some 1, limit := some 10,
          sortBy := some "equipmentName", sortOrder := some "asc" }).pagination.limit = 10 ∧
      (equipmentListRoute dbChain
        { page := some 1, limit := some 10,
          sortBy := some "equipmentName", sortOrder := some "asc" }).pagination.total =
        (eqMatching dbChain (routeEquipParams
          { page := some 1, limit := some 10,
            sortBy := some "equipmentName", sortOrder := some "asc" })).length ∧
      (eqMatching dbChain (routeEquipParams
        { page := some 1, limit := some 10,
          sortBy := some "equipmentName", sortOrder := some "asc" })).length ≤
        (equipmentListRoute dbChain
          { page := some 1, limit := some 10,
            sortBy := some "equipmentName", sortOrder := some "asc" }).pagination.totalPages * 10 ∧
      (equipmentListRoute dbChain
        { page := some 1, limit := some 10,
          sortBy := some "equipmentName", sortOrder := some "asc" }).pagination.totalPages * 10 <
        (eqMatching dbChain (routeEquipParams
          { page := some 1, limit := some 10,
            sortBy := some "equipmentName", sortOrder := some "asc" })).length + 10 :=
  equipment_listing_paginated dbChain
    { page := some 1, limit := some 10,
      sortBy := some "equipmentName", sortOrder := some "asc" }
    "equipmentName" "asc" 1 10 (by decide) (by decide) rfl rfl rfl rfl
    (by decide) (by decide)

/-! ## Substring matching facts -/

theorem charsBeginWith_iff (k l : List Char) :
    charsBeginWith k l = true ↔ ∃ q, l = k ++ q := by
  induction k generalizing l with
  | nil => simp [charsBeginWith]
  | cons a as ih =>
    cases l with
    | nil => simp [charsBeginWith]
    | cons b bs =>
      simp only [charsBeginWith, Bool.and_eq_true, beq_iff_eq, ih, List.cons_append,
        List.cons.injEq]
      constructor
      · rintro ⟨rfl, q, rfl⟩; exact ⟨q, rfl, rfl⟩
      · rintro ⟨q, rfl, rfl⟩; exact ⟨rfl, q, rfl⟩

theorem charsContain_iff (l k : List Char) :
    charsContain l k = true ↔ ∃ p q, l = p ++ k ++ q := by
  induction l with
  | nil =>
    cases k with
    | nil => simp [charsContain, charsBeginWith]
    | cons a as => simp [charsContain, charsBeginWith]
  | cons c rest ih =>
    simp only [charsContain, Bool.or_eq_true, charsBeginWith_iff, ih]
    constructor
    · rintro (⟨q, hq⟩ | ⟨p, q, hpq⟩)
      · exact ⟨[], q, by simp [hq]⟩
      · exact ⟨c :: p, q, by simp [hpq]⟩
    · rintro ⟨p, q, hpq⟩
      cases p with
      | nil => exact Or.inl ⟨q, by simpa using hpq⟩
      | cons x xs =>
        right
        rw [List.cons_append, List.cons_append, List.cons.injEq] at hpq
        exact ⟨xs, q, hpq.2⟩

theorem strIncludes_iff (s k : String) : strIncludes s k = true ↔ hasSubstr s k :=
  charsContain_iff s.data k.data

theorem optIncludes_iff (d : Option String) (k : String) :
    optIncludes d k = true ↔ ∃ s, d = some s ∧ hasSubstr s k := by
  cases d with
  | none => simp [optIncludes]
  | some s => simp [optIncludes, strIncludes_iff]

/-! ## Shape of the joined association rows -/

/-- Every joined row produced for an association `a` carries `a` itself,
rows of the three inner-joined tables with matching keys, and — when present —
a supplier row of the spare part. -/
theorem mem_expandAssoc {db : Database} {a : AssocRow} {j : AJRow}
    (h : j ∈ expandAssoc db a) :
    j.assoc = a ∧
    j.equipment ∈ db.equipment ∧ j.equipment.equipmentId = a.equipmentId ∧
    j.component ∈ db.components ∧ j.component.componentId = a.componentId ∧
    j.sparePart ∈ db.spareParts ∧ j.sparePart.sparePartId = a.sparePartId ∧
    ∀ s, j.supplier = some s →
      s ∈ db.sparePartSuppliers ∧ s.sparePartId = j.sparePart.sparePartId := by
  simp only [expandAssoc, List.mem_flatMap, List.mem_filter, beq_iff_eq] at h
  obtain ⟨e, ⟨he, heq⟩, c, ⟨hc, hceq⟩, sp, ⟨hsp, hspeq⟩, hj⟩ := h
  by_cases hms : (db.sparePartSuppliers.filter fun s => s.sparePartId == sp.sparePartId).isEmpty
  · rw [if_pos hms, List.mem_singleton] at hj
    subst hj
    exact ⟨rfl, he, heq, hc, hceq, hsp, hspeq, fun s hs => by cases hs⟩
  · rw [if_neg hms, List.mem_map] at hj
    obtain ⟨s, hsmem, rfl⟩ := hj
    rw [List.mem_filter, beq_iff_eq] at hsmem
    exact ⟨rfl, he, heq, hc, hceq, hsp, hspeq,
      fun s' hs' => by cases hs'; exact ⟨hsmem.1, hsmem.2⟩⟩

/-- Every joined row of the association query comes from an association of the
table and satisfies the key-matching shape. -/
theorem mem_assocJoinedRows {db : Database} {j : AJRow} (h : j ∈ assocJoinedRows db) :
    j.assoc ∈ db.associations ∧
    j.equipment ∈ db.equipment ∧ j.equipment.equipmentId = j.assoc.equipmentId ∧
    j.component ∈ db.components ∧ j.component.componentId = j.assoc.componentId ∧
    j.sparePart ∈ db.spareParts ∧ j.sparePart.sparePartId = j.assoc.sparePartId ∧
    ∀ s, j.supplier = some s →
      s ∈ db.sparePartSuppliers ∧ s.sparePartId = j.sparePart.sparePartId := by
  rw [assocJoinedRows, List.mem_flatMap] at h
  obtain ⟨a, ha, hj⟩ := h
  obtain ⟨rfl, h2, h3, h4, h5, h6, h7, h8⟩ := mem_expandAssoc hj
  exact ⟨ha, h2, h3, h4, h5, h6, h7, h8⟩

/-! ## Association filters: importance levels and supply-cycle range (C2) -/

/-- C2: with `importanceLevel = [A, B]` and `supplyCycleRange = (2, 6)`, every
row returned by the association listing has a component importance level of A
or B and a supplier of its spare part whose supply cycle lies in `[2, 6]`
(both bounds inclusive). -/
theorem associations_importance_and_cycle_filters (db : Database) (p : AssocParams)
    (h1 : p.importanceLevel = some ["A", "B"]) (h2 : p.supplyCycleRange = some (2, 6)) :
    ∀ r ∈ getAssociations db p,
      (r.importanceLevel = "A" ∨ r.importanceLevel = "B") ∧
      ∃ s ∈ db.sparePartSuppliers, s.sparePartId = r.sparePartId ∧
        2 ≤ s.supplyCycleWeeks ∧ s.supplyCycleWeeks ≤ 6 := by
  intro r hr
  rw [getAssociations, List.mem_map] at hr
  obtain ⟨j, hj, rfl⟩ := hr
  rw [List.mem_insertionSort, getAssociationsFiltered, List.mem_filter] at hj
  obtain ⟨hjmem, hcond⟩ := hj
  obtain ⟨-, -, -, -, -, -, hkey, hsup⟩ := mem_assocJoinedRows hjmem
  rw [assocCondHolds, h1, h2] at hcond
  simp only [Bool.and_eq_true] at hcond
  obtain ⟨⟨⟨⟨-, himp⟩, hcyc⟩, -⟩, -⟩ := hcond
  constructor
  · simpa [projectAssoc, List.contains] using himp
  · cases hs : j.supplier with
    | none => rw [hs] at hcyc; cases hcyc
    | some s =>
      rw [hs] at hcyc
      simp only [Bool.and_eq_true, decide_eq_true_eq] at hcyc
      obtain ⟨hm, hsid⟩ := hsup s hs
      exact ⟨s, hm, by rw [hsid, hkey]; rfl, hcyc.1, hcyc.2⟩

/-- Witness for the importance/supply-cycle filter claim at a concrete
database and row. -/
theorem associations_importance_and_cycle_filters_witness :
    (assocOutChain.importanceLevel = "A" ∨ assocOutChain.importanceLevel = "B") ∧
    ∃ s ∈ dbDup.sparePartSuppliers, s.sparePartId = assocOutChain.sparePartId ∧
      2 ≤ s.supplyCycleWeeks ∧ s.supplyCycleWeeks ≤ 6 :=
  associations_importance_and_cycle_filters dbDup
    { importanceLevel := some ["A", "B"], supplyCycleRange := some (2, 6) }
    rfl rfl assocOutChain (by decide)

/-! ## Association keyword filter (C7) -/

/-- With a non-empty keyword, the condition of `getAssociations` factors into
the keyword-free condition and the five-way `LIKE` disjunction. -/
theorem assocCondHolds_keyword_split (p : AssocParams) (k : String)
    (hk : p.keyword = some k) (hk' : k ≠ "") (j : AJRow) :
    assocCondHolds p j =
      (assocCondHolds { p with keyword := none } j &&
        (strIncludes j.sparePart.materialCode k ||
         optIncludes j.sparePart.description k ||
         optIncludes j.sparePart.specification k ||
         strIncludes j.equipment.equipmentName k ||
         strIncludes j.component.componentName k)) := by
  have hke : (k == "") = false := by
    cases hb : (k == "") with
    | false => rfl
    | true => exact absurd (eq_of_beq hb) hk'
  rw [assocCondHolds, assocCondHolds, hk]
  simp only [hke, Bool.false_eq_true, if_false, Bool.and_true, Bool.and_assoc]

/-- The boolean five-way `LIKE` disjunction coincides with the
specification-level keyword match. -/
theorem keyword_bool_iff (k : String) (j : AJRow) :
    (strIncludes j.sparePart.materialCode k ||
     optIncludes j.sparePart.description k ||
     optIncludes j.sparePart.specification k ||
     strIncludes j.equipment.equipmentName k ||
     strIncludes j.component.componentName k) = true ↔ keywordHit k j := by
  simp only [keywordHit, Bool.or_eq_true, strIncludes_iff, optIncludes_iff, or_assoc]

/-- C7: with a non-empty keyword `k`, a row is returned by the association
listing exactly when it is the projection of a joined row that passes all the
other supplied filters and on which `k` occurs as a substring of the spare
part's material code, description or specification, the equipment's name, or
the component's name (logical OR over the five fields). -/
theorem associations_keyword_filter (db : Database) (p : AssocParams) (k : String)
    (hk : p.keyword = some k) (hk' : k ≠ "") :
    ∀ r : AssocOut, r ∈ getAssociations db p ↔
      ∃ j ∈ getAssociationsFiltered db { p with keyword := none },
        r = projectAssoc j ∧ keywordHit k j := by
  intro r
  constructor
  · intro hr
    rw [getAssociations, List.mem_map] at hr
    obtain ⟨j, hj, rfl⟩ := hr
    rw [List.mem_insertionSort, getAssociationsFiltered, List.mem_filter] at hj
    obtain ⟨hjmem, hcond⟩ := hj
    rw [assocCondHolds_keyword_split p k hk hk', Bool.and_eq_true] at hcond
    exact ⟨j, List.mem_filter.mpr ⟨hjmem, hcond.1⟩, rfl,
      (keyword_bool_iff k j).mp hcond.2⟩
  · rintro ⟨j, hj, rfl, hhit⟩
    rw [getAssociationsFiltered, List.mem_filter] at hj
    rw [getAssociations, List.mem_map]
    refine ⟨j, ?_, rfl⟩
    rw [List.mem_insertionSort, getAssociationsFiltered, List.mem_filter]
    refine ⟨hj.1, ?_⟩
    rw [assocCondHolds_keyword_split p k hk hk', Bool.and_eq_true]
    exact ⟨hj.2, (keyword_bool_iff k j).mpr hhit⟩

/-- Witness for the keyword filter claim at a concrete database and row. -/
theorem associations_keyword_filter_witness :
    assocOutChain ∈ getAssociations dbChain { keyword := some "M" } ↔
      ∃ j ∈ getAssociationsFiltered dbChain
          { (({ keyword := some "M" } : AssocParams)) with keyword := none },
        assocOutChain = projectAssoc j ∧ keywordHit "M" j :=
  associations_keyword_filter dbChain { keyword := some "M" } "M" rfl (by decide) assocOutChain

/-! ## Counting joined rows (C8) -/

theorem countP_flatMap {α β : Type} (f : α → List β) (p : β → Bool) (l : List α) :
    (l.flatMap f).countP p = (l.map fun a => (f a).countP p).sum := by
  induction l with
  | nil => rfl
  | cons a l ih => simp [List.flatMap_cons, List.countP_append, ih]

/-- In a table whose key column is duplicate-free, filtering on the key of a
member row yields exactly that row. -/
theorem filter_key_eq_singleton {α : Type} (key : α → Nat) {l : List α}
    (h : (l.map key).Nodup) {x : α} (hx : x ∈ l) :
    l.filter (fun y => key y == key x) = [x] := by
  induction l with
  | nil => cases hx
  | cons a l ih =>
    rw [List.map_cons, List.nodup_cons] at h
    rcases List.mem_cons.mp hx with rfl | hx'
    · rw [List.filter_cons_of_pos (by simp)]
      have : l.filter (fun y => key y == key x) = [] := by
        rw [List.filter_eq_nil_iff]
        intro y hy hkey
        exact h.1 ((eq_of_beq hkey) ▸ List.mem_map_of_mem key hy)
      rw [this]
    · have hne : key a ≠ key x := fun he => h.1 (he ▸ List.mem_map_of_mem key hx')
      rw [List.filter_cons_of_neg (by simpa using hne)]
      exact ih h.2 hx'

/-- In a table whose key column is duplicate-free, `find?` on the key of a
member row yields exactly that row. -/
theorem find?_key_of_mem_nodup {α : Type} (key : α → Nat) {l : List α}
    (h : (l.map key).Nodup) {x : α} (hx : x ∈ l) :
    l.find? (fun y => key y == key x) = some x := by
  induction l with
  | nil => cases hx
  | cons a l ih =>
    rw [List.map_cons, List.nodup_cons] at h
    rcases List.mem_cons.mp hx with rfl | hx'
    · rw [List.find?_cons_of_pos _ (by simp)]
    · have hne : key a ≠ key x := fun he => h.1 (he ▸ List.mem_map_of_mem key hx')
      rw [List.find?_cons_of_neg _ (by simpa using hne)]
      exact ih h.2 hx'

/-- If `g` vanishes on every list member whose key differs from the member
`x`'s and keys are duplicate-free, the sum of `g` over the list is `g x`. -/
theorem map_sum_eq_single {α : Type} (key : α → Nat) (g : α → Nat) (l : List α)
    (h : (l.map key).Nodup) (x : α) (hx : x ∈ l)
    (hother : ∀ y ∈ l, key y ≠ key x → g y = 0) :
    (l.map g).sum = g x := by
  induction l with
  | nil => cases hx
  | cons a l ih =>
    rw [List.map_cons, List.nodup_cons] at h
    rw [List.map_cons, List.sum_cons]
    rcases List.mem_cons.mp hx with rfl | hx'
    · have hz : (l.map g).sum = 0 := by
        apply List.sum_eq_zero
        intro n hn
        rw [List.mem_map] at hn
        obtain ⟨y, hy, rfl⟩ := hn
        refine hother y (List.mem_cons_of_mem _ hy) fun hkey => ?_
        exact h.1 (hkey ▸ List.mem_map_of_mem key hy)
      rw [hz]
      omega
    · have hne : key a ≠ key x := fun he => h.1 (he ▸ List.mem_map_of_mem key hx')
      rw [hother a (List.mem_cons_self a l) hne, ih h.2 hx'
        (fun y hy => hother y (List.mem_cons_of_mem _ hy)), Nat.zero_add]

/-- When the three foreign keys of an association resolve to unique rows, its
join expansion is the left join against the suppliers of that spare part. -/
theorem expandAssoc_of_unique (db : Database) (a : AssocRow)
    (hE : (db.equipment.map (·.equipmentId)).Nodup)
    (hC : (db.components.map (·.componentId)).Nodup)
    (hS : (db.spareParts.map (·.sparePartId)).Nodup)
    {e : EquipmentRow} (he : e ∈ db.equipment) (heid : e.equipmentId = a.equipmentId)
    {c : ComponentRow} (hc : c ∈ db.components) (hcid : c.componentId = a.componentId)
    {sp : SparePartRow} (hsp : sp ∈ db.spareParts) (hspid : sp.sparePartId = a.sparePartId) :
    expandAssoc db a =
      if (db.sparePartSuppliers.filter fun s => s.sparePartId == sp.sparePartId).isEmpty
      then [⟨a, e, c, sp, none⟩]
      else (db.sparePartSuppliers.filter fun s => s.sparePartId == sp.sparePartId).map
        fun s => ⟨a, e, c, sp, some s⟩ := by
  have h1 : (db.equipment.filter fun y => y.equipmentId == a.equipmentId) = [e] := by
    rw [← heid]; exact filter_key_eq_singleton (·.equipmentId) hE he
  have h2 : (db.components.filter fun y => y.componentId == a.componentId) = [c] := by
    rw [← hcid]; exact filter_key_eq_singleton (·.componentId) hC hc
  have h3 : (db.spareParts.filter fun y => y.sparePartId == a.sparePartId) = [sp] := by
    rw [← hspid]; exact filter_key_eq_singleton (·.sparePartId) hS hsp
  rw [expandAssoc, h1, h2, h3]
  simp only [List.flatMap_cons, List.flatMap_nil, List.append_nil]

/-- C8: for every association whose spare part has `n ≥ 2` supplier rows, the
unfiltered association listing contains exactly `n` result rows with that
association's id — the query left-joins `spare_part_supplier` and never
deduplicates, so the listing contains duplicates. -/
theorem associations_duplicate_per_supplier (db : Database) (a : AssocRow)
    (hwf : dbWf db) (ha : a ∈ db.associations)
    (h2 : 2 ≤ supplierCountFor db a.sparePartId) :
    (getAssociations db {}).countP (fun r => r.id == a.id) =
      supplierCountFor db a.sparePartId ∧
    2 ≤ (getAssociations db {}).countP (fun r => r.id == a.id) := by
  obtain ⟨⟨-, -, -, hE, hC, hS, -, hA⟩, -, hFe, hFc, hFs⟩ := hwf
  have hfilter : getAssociationsFiltered db {} = assocJoinedRows db :=
    List.filter_eq_self.mpr fun j _ => rfl
  have key : (assocJoinedRows db).countP (fun j => j.assoc.id == a.id) =
      supplierCountFor db a.sparePartId := by
    rw [assocJoinedRows, countP_flatMap]
    have hga : ∀ a' ∈ db.associations, a'.id ≠ a.id →
        (expandAssoc db a').countP (fun j => j.assoc.id == a.id) = 0 := by
      intro a' _ hne
      rw [List.countP_eq_zero]
      intro j hj
      simp [(mem_expandAssoc hj).1, hne]
    rw [map_sum_eq_single (fun a' => a'.id) _ db.associations hA a ha hga]
    have hgaa : (expandAssoc db a).countP (fun j => j.assoc.id == a.id) =
        (expandAssoc db a).length := by
      rw [List.countP_eq_length]
      intro j hj
      simp [(mem_expandAssoc hj).1]
    rw [hgaa]
    obtain ⟨e, he, heid⟩ := hFe a ha
    obtain ⟨c, hc, hcid⟩ := hFc a ha
    obtain ⟨sp, hsp, hspid⟩ := hFs a ha
    rw [expandAssoc_of_unique db a hE hC hS he heid hc hcid hsp hspid]
    simp only [hspid]
    cases hl : db.sparePartSuppliers.filter fun s => s.sparePartId == a.sparePartId with
    | nil =>
      exfalso
      have : supplierCountFor db a.sparePartId = 0 := by
        rw [supplierCountFor, hl]; rfl
      omega
    | cons s ss =>
      rw [List.isEmpty_cons]
      simp only [Bool.false_eq_true, if_false, List.length_map]
      rw [supplierCountFor, hl]
  have main : (getAssociations db {}).countP (fun r => r.id == a.id) =
      supplierCountFor db a.sparePartId := by
    calc (getAssociations db {}).countP (fun r => r.id == a.id)
        = (getAssociationsFiltered db {}).countP
            ((fun r => r.id == a.id) ∘ projectAssoc) := by
          rw [getAssociations, List.countP_map]
          exact (List.perm_insertionSort _ _).countP_eq _
      _ = (assocJoinedRows db).countP (fun j => j.assoc.id == a.id) := by
          rw [hfilter]; rfl
      _ = supplierCountFor db a.sparePartId := key
  exact ⟨main, main ▸ h2⟩

/-- Witness for the duplicate-per-supplier claim: in `dbDup`, association 1's
spare part has two suppliers and the listing shows its id twice. -/
theorem associations_duplicate_per_supplier_witness :
    (getAssociations dbDup {}).countP (fun r => r.id == (1 : Nat)) =
      supplierCountFor dbDup 1 ∧
    2 ≤ (getAssociations dbDup {}).countP (fun r => r.id == (1 : Nat)) :=
  associations_duplicate_per_supplier dbDup ⟨1, 1, 1, 1, some 1, 0, 0⟩
    (by decide) (by decide) (by decide)

/-! ## The grouping loop of the equipment hierarchy (C4) -/

theorem mapHasKey_iff (m : List (Nat × CompEntry)) (k : Nat) :
    mapHasKey m k = true ↔ k ∈ m.map (·.1) := by
  simp only [mapHasKey, List.any_eq_true, List.mem_map, beq_iff_eq]

theorem mapPush_keys (m : List (Nat × CompEntry)) (k : Nat) (it : SparePartRow × AssocOut) :
    (mapPush m k it).map (·.1) = m.map (·.1) := by
  induction m with
  | nil => rfl
  | cons q rest ih =>
    obtain ⟨k', e⟩ := q
    rw [mapPush]
    by_cases h : (k' == k) = true
    · rw [if_pos h]; rfl
    · rw [if_neg h]; simpa using ih

/-- `mapPush` leaves entries with other keys alone and appends the item to the
(unique) entry with key `k`. -/
theorem mapPush_mem {m : List (Nat × CompEntry)} (hN : (m.map (·.1)).Nodup) {k : Nat}
    {it : SparePartRow × AssocOut} {p' : Nat × CompEntry} (hp' : p' ∈ mapPush m k it) :
    (p' ∈ m ∧ p'.1 ≠ k) ∨
    (∃ e : CompEntry, (k, e) ∈ m ∧ p'.1 = k ∧
      p'.2.spareParts = e.spareParts ++ [it]) := by
  induction m with
  | nil => cases hp'
  | cons q rest ih =>
    obtain ⟨k', e⟩ := q
    rw [List.map_cons, List.nodup_cons] at hN
    rw [mapPush] at hp'
    by_cases h : (k' == k) = true
    · have hk' : k' = k := eq_of_beq h
      rw [if_pos h] at hp'
      rcases List.mem_cons.mp hp' with rfl | hmem
      · exact Or.inr ⟨e, by rw [← hk']; exact List.mem_cons_self _ _, hk', rfl⟩
      · subst hk'
        refine Or.inl ⟨List.mem_cons_of_mem _ hmem, fun hfalse => ?_⟩
        exact hN.1 (hfalse ▸ List.mem_map_of_mem (·.1) hmem)
    · rw [if_neg h] at hp'
      rcases List.mem_cons.mp hp' with rfl | hmem
      · exact Or.inl ⟨List.mem_cons_self _ _,
          fun hfalse => h (beq_iff_eq.mpr (by simpa using hfalse))⟩
      · rcases ih hN.2 hmem with ⟨h1, h2⟩ | ⟨e', h1, h2, h3⟩
        · exact Or.inl ⟨List.mem_cons_of_mem _ h1, h2⟩
        · exact Or.inr ⟨e', List.mem_cons_of_mem _ h1, h2, h3⟩

/-- One grouping iteration preserves the loop invariant when the row's
component and spare part both resolve. -/
theorem hierStep_inv (db : Database) (done : List AssocOut) (m : List (Nat × CompEntry))
    (r : AssocOut) (hm : MapInv done m)
    (hcex : ∃ c, getComponent db r.componentId = some c)
    (hsex : ∃ sp, getSparePart db r.sparePartId = some sp) :
    MapInv (done ++ [r]) (hierStep db m r) := by
  obtain ⟨hK1, hK2, hK3, hK4⟩ := hm
  obtain ⟨c, hc⟩ := hcex
  obtain ⟨sp, hs⟩ := hsex
  have hspid : sp.sparePartId = r.sparePartId := by
    have h' : db.spareParts.find? (fun x => x.sparePartId == r.sparePartId) = some sp := hs
    have h2 := List.find?_some h'
    exact eq_of_beq h2
  have hr1 : ([r].countP fun x => x.componentId == r.componentId) = 1 := by simp
  have hmapr : (done ++ [r]).map (·.componentId) =
      done.map (·.componentId) ++ [r.componentId] := by simp
  rw [hierStep]
  by_cases hHas : mapHasKey m r.componentId = true
  · rw [if_pos hHas, if_pos hHas, hs]
    refine ⟨by rw [mapPush_keys]; exact hK1, ?_, ?_, ?_⟩
    · intro k
      rw [mapHasKey_iff, mapPush_keys, ← mapHasKey_iff, hK2, hmapr, List.mem_append,
        List.mem_singleton]
      constructor
      · exact Or.inl
      · rintro (h | rfl)
        · exact h
        · rw [← hK2]; exact hHas
    · intro p' hp'
      rcases mapPush_mem hK1 hp' with ⟨hmem, hne⟩ | ⟨e, hmem, hkeq, hsp2⟩
      · have hz : ([r].countP fun x => x.componentId == p'.1) = 0 := by
          simp [Ne.symm hne]
        rw [List.countP_append, hz, Nat.add_zero]
        exact hK3 p' hmem
      · rw [hsp2, List.length_append, List.countP_append, hkeq]
        rw [hK3 (r.componentId, e) hmem, hr1]
        rfl
    · intro p' hp' it hit
      rcases mapPush_mem hK1 hp' with ⟨hmem, hne⟩ | ⟨e, hmem, hkeq, hsp2⟩
      · have h := hK4 p' hmem it hit
        exact ⟨List.mem_append_left _ h.1, h.2.1, h.2.2⟩
      · rw [hsp2, List.mem_append, List.mem_singleton] at hit
        rcases hit with hold | rfl
        · have h := hK4 (r.componentId, e) hmem it hold
          exact ⟨List.mem_append_left _ h.1, by rw [h.2.1, hkeq], h.2.2⟩
        · exact ⟨List.mem_append_right _ (List.mem_singleton_self r), by rw [hkeq], hspid⟩
  · rw [if_neg hHas, hc]
    have hnotm : r.componentId ∉ m.map (·.1) := fun hmem =>
      hHas ((mapHasKey_iff m r.componentId).mpr hmem)
    have hm1has : mapHasKey (m ++ [(r.componentId, CompEntry.mk c [])]) r.componentId = true := by
      simp [mapHasKey, List.any_append]
    rw [if_pos hm1has, hs]
    have hK1' : ((m ++ [(r.componentId, CompEntry.mk c [])]).map (·.1)).Nodup := by
      rw [List.map_append, List.nodup_append]
      refine ⟨hK1, List.nodup_singleton _, fun a ha hb => ?_⟩
      simp only [List.map_cons, List.map_nil, List.mem_singleton] at hb
      exact hnotm (hb ▸ ha)
    have honly : ∀ e : CompEntry, (r.componentId, e) ∈ m ++ [(r.componentId, CompEntry.mk c [])] →
        e = ⟨c, []⟩ := by
      intro e hmem
      rcases List.mem_append.mp hmem with hmm | hsing
      · exact absurd (List.mem_map_of_mem (·.1) hmm) hnotm
      · simpa using hsing
    have hdone0 : done.countP (fun x => x.componentId == r.componentId) = 0 := by
      apply List.countP_eq_zero.mpr
      intro x hx hbeq
      exact hHas ((hK2 r.componentId).mpr ((eq_of_beq hbeq) ▸ List.mem_map_of_mem _ hx))
    refine ⟨by rw [mapPush_keys]; exact hK1', ?_, ?_, ?_⟩
    · intro k
      rw [mapHasKey_iff, mapPush_keys, List.map_append, List.mem_append, hmapr,
        List.mem_append]
      simp only [List.map_cons, List.map_nil, List.mem_singleton]
      constructor
      · rintro (h | rfl)
        · exact Or.inl ((hK2 k).mp ((mapHasKey_iff m k).mpr h))
        · exact Or.inr rfl
      · rintro (h | rfl)
        · exact Or.inl ((mapHasKey_iff m k).mp ((hK2 k).mpr h))
        · exact Or.inr rfl
    · intro p' hp'
      rcases mapPush_mem hK1' hp' with ⟨hmem, hne⟩ | ⟨e, hmem, hkeq, hsp2⟩
      · rcases List.mem_append.mp hmem with hmm | hsing
        · have hz : ([r].countP fun x => x.componentId == p'.1) = 0 := by
            simp [Ne.symm hne]
          rw [List.countP_append, hz, Nat.add_zero]
          exact hK3 p' hmm
        · exact absurd (show p'.1 = r.componentId by
            rw [List.mem_singleton.mp hsing]) hne
      · rw [hsp2, honly e hmem, List.countP_append, hkeq, hdone0, hr1]
        rfl
    · intro p' hp' it hit
      rcases mapPush_mem hK1' hp' with ⟨hmem, hne⟩ | ⟨e, hmem, hkeq, hsp2⟩
      · rcases List.mem_append.mp hmem with hmm | hsing
        · have h := hK4 p' hmm it hit
          exact ⟨List.mem_append_left _ h.1, h.2.1, h.2.2⟩
        · exact absurd (show p'.1 = r.componentId by
            rw [List.mem_singleton.mp hsing]) hne
      · rw [hsp2, honly e hmem] at hit
        simp only [List.nil_append, List.mem_singleton] at hit
        subst hit
        exact ⟨List.mem_append_right _ (List.mem_singleton_self r), by rw [hkeq], hspid⟩

/-- The grouping fold maintains the invariant over any suffix of rows whose
components and spare parts all resolve. -/
theorem foldl_hierStep_inv (db : Database) :
    ∀ (rows done : List AssocOut) (m : List (Nat × CompEntry)),
      (∀ r ∈ rows, (∃ c, getComponent db r.componentId = some c) ∧
        (∃ sp, getSparePart db r.sparePartId = some sp)) →
      MapInv done m → MapInv (done ++ rows) (rows.foldl (hierStep db) m)
  | [], done, m, _, hm => by simpa using hm
  | r :: rows, done, m, hgood, hm => by
    have h1 := hierStep_inv db done m r hm (hgood r (List.mem_cons_self r rows)).1
      (hgood r (List.mem_cons_self r rows)).2
    have h2 := foldl_hierStep_inv db rows (done ++ [r]) (hierStep db m r)
      (fun r' hr' => hgood r' (List.mem_cons_of_mem r hr')) h1
    simpa [List.append_assoc] using h2

/-- The handler's finished `componentsMap` satisfies the loop invariant. -/
theorem buildComponentsMap_inv (db : Database) (rows : List AssocOut)
    (hgood : ∀ r ∈ rows, (∃ c, getComponent db r.componentId = some c) ∧
      (∃ sp, getSparePart db r.sparePartId = some sp)) :
    MapInv rows (buildComponentsMap db rows) := by
  have h := foldl_hierStep_inv db rows [] []
    hgood ⟨by simp, by intro k; simp [mapHasKey], by simp, by simp⟩
  simpa [buildComponentsMap] using h

theorem sum_map_ite_countP {α : Type} (p : α → Bool) (l : List α) :
    (l.map fun a => if p a = true then 1 else 0).sum = l.countP p := by
  induction l with
  | nil => rfl
  | cons a l ih =>
    rw [List.map_cons, List.sum_cons, ih, List.countP_cons]
    by_cases h : p a = true
    · rw [if_pos h]; omega
    · rw [if_neg h]; omega

/-- With unique foreign-key targets and at most one supplier, the join
expansion of an association is a single row. -/
theorem expandAssoc_length_one (db : Database) (a : AssocRow)
    (hE : (db.equipment.map (·.equipmentId)).Nodup)
    (hC : (db.components.map (·.componentId)).Nodup)
    (hS : (db.spareParts.map (·.sparePartId)).Nodup)
    {e : EquipmentRow} (he : e ∈ db.equipment) (heid : e.equipmentId = a.equipmentId)
    {c : ComponentRow} (hc : c ∈ db.components) (hcid : c.componentId = a.componentId)
    {sp : SparePartRow} (hsp : sp ∈ db.spareParts) (hspid : sp.sparePartId = a.sparePartId)
    (hsup1 : supplierCountFor db a.sparePartId ≤ 1) :
    (expandAssoc db a).length = 1 := by
  rw [expandAssoc_of_unique db a hE hC hS he heid hc hcid hsp hspid]
  have hfe : (db.sparePartSuppliers.filter fun s => s.sparePartId == sp.sparePartId) =
      (db.sparePartSuppliers.filter fun s => s.sparePartId == a.sparePartId) := by
    simp only [hspid]
  rw [hfe]
  cases hl : db.sparePartSuppliers.filter fun s => s.sparePartId == a.sparePartId with
  | nil => rfl
  | cons s ss =>
    have hcount : supplierCountFor db a.sparePartId = ss.length + 1 := by
      rw [supplierCountFor, hl]; rfl
    have hss : ss = [] := by
      cases ss with
      | nil => rfl
      | cons y ys => rw [hcount] at hsup1; simp at hsup1
    subst hss
    rfl

/-- C4 counterexample: in `dbDup`, equipment 1 has exactly two components,
each tied to exactly two distinct spare parts through association rows, yet
each component child of the hierarchy response has **three** spare-part
children, because spare part 1's two supplier rows duplicate its left-joined
association rows. -/
theorem hierarchy_two_by_two_counterexample :
    dbWf dbDup ∧ twoByTwoPremise dbDup 1 ∧
    ((hierarchyEquipment dbDup 1).map fun t => t.children.map fun ch => ch.children.length) =
      some [3, 3] :=
  ⟨by decide, ⟨1, 2, 1, 2, 1, 2, by decide, by decide, by decide, by decide⟩, by decide⟩

/-- C4 (amended): for a well-formed database, an equipment whose association
rows tie exactly two distinct components each to exactly two distinct spare
parts, *provided every involved spare part has at most one supplier row*, the
equipment hierarchy response has exactly two component children, each with
exactly two spare-part children, and each spare-part node's data carries the
quantity of the corresponding association row and the importance level of its
component. -/
theorem hierarchy_equipment_two_by_two (db : Database) (eid : Nat) (hwf : dbWf db)
    (hprem : twoByTwoPremise db eid)
    (hsup : ∀ a ∈ assocsFor db eid, supplierCountFor db a.sparePartId ≤ 1) :
    ∃ t : EquipHierarchy, hierarchyEquipment db eid = some t ∧
      t.children.length = 2 ∧
      ∀ ch ∈ t.children, ch.children.length = 2 ∧
        ∀ sn ∈ ch.children, ∃ a ∈ db.associations,
          a.equipmentId = eid ∧ a.componentId = ch.id ∧ a.sparePartId = sn.id ∧
          sn.data.quantity = a.quantity ∧
          ∃ co ∈ db.components, co.componentId = a.componentId ∧
            sn.data.importanceLevel = co.importanceLevel := by
  obtain ⟨⟨-, -, -, hE, hC, hS, -, -⟩, ⟨hpos, -, -, -, -, -⟩, hFe, hFc, hFs⟩ := hwf
  obtain ⟨c1, c2, s11, s12, s21, s22, hc12, -, -, hperm⟩ := hprem
  have hAlen : (assocsFor db eid).length = 4 := by
    have h := hperm.length_eq
    simpa using h
  have hAmem : ∀ a ∈ assocsFor db eid, a ∈ db.associations ∧ a.equipmentId = eid := by
    intro a ha
    rw [assocsFor, List.mem_filter] at ha
    exact ⟨ha.1, eq_of_beq ha.2⟩
  obtain ⟨a0, ha0⟩ : ∃ a0, a0 ∈ assocsFor db eid := by
    cases hAl : assocsFor db eid with
    | nil => rw [hAl] at hAlen; cases hAlen
    | cons a0 t => exact ⟨a0, List.mem_cons_self a0 t⟩
  obtain ⟨ha0mem, ha0eid⟩ := hAmem a0 ha0
  obtain ⟨e, he, heid⟩ := hFe a0 ha0mem
  rw [ha0eid] at heid
  have heid0 : eid ≠ 0 := by
    have h := hpos e he
    omega
  have hfind : getEquipment db eid = some e := by
    have h1 := find?_key_of_mem_nodup (·.equipmentId) hE he
    rw [getEquipment]
    simpa [heid] using h1
  have hbeq0 : (eid == 0) = false := beq_eq_false_iff_ne.mpr heid0
  have hcond : ∀ j : AJRow,
      assocCondHolds { equipmentId := some eid } j = (j.assoc.equipmentId == eid) := by
    intro j
    rw [assocCondHolds]
    simp [hbeq0]
  have hshape : ∀ r ∈ getAssociations db { equipmentId := some eid },
      ∃ a ∈ db.associations, a.equipmentId = eid ∧ r.componentId = a.componentId ∧
        r.sparePartId = a.sparePartId ∧ r.quantity = a.quantity ∧
        ∃ co ∈ db.components, co.componentId = a.componentId ∧
          r.importanceLevel = co.importanceLevel := by
    intro r hr
    rw [getAssociations, List.mem_map] at hr
    obtain ⟨j, hj, rfl⟩ := hr
    rw [List.mem_insertionSort, getAssociationsFiltered, List.mem_filter] at hj
    obtain ⟨hjm, hjc⟩ := hj
    rw [hcond] at hjc
    obtain ⟨hamem, -, -, hcm, hcid, -, -, -⟩ := mem_assocJoinedRows hjm
    exact ⟨j.assoc, hamem, eq_of_beq hjc, rfl, rfl, rfl, j.component, hcm, hcid, rfl⟩
  have hgood : ∀ r ∈ getAssociations db { equipmentId := some eid },
      (∃ co, getComponent db r.componentId = some co) ∧
      (∃ sp, getSparePart db r.sparePartId = some sp) := by
    intro r hr
    rw [getAssociations, List.mem_map] at hr
    obtain ⟨j, hj, rfl⟩ := hr
    rw [List.mem_insertionSort, getAssociationsFiltered, List.mem_filter] at hj
    obtain ⟨hjm, -⟩ := hj
    obtain ⟨-, -, -, hcm, hcid, hsm, hsid, -⟩ := mem_assocJoinedRows hjm
    constructor
    · refine ⟨j.component, ?_⟩
      have h1 := find?_key_of_mem_nodup (·.componentId) hC hcm
      rw [getComponent]
      simpa [hcid] using h1
    · refine ⟨j.sparePart, ?_⟩
      have h1 := find?_key_of_mem_nodup (·.sparePartId) hS hsm
      rw [getSparePart]
      simpa [hsid] using h1
  have hcnt : ∀ k, (getAssociations db { equipmentId := some eid }).countP
      (fun r => r.componentId == k) =
      (assocsFor db eid).countP (fun a => a.componentId == k) := by
    intro k
    rw [getAssociations, List.countP_map,
      (List.perm_insertionSort assocOrderRel _).countP_eq, getAssociationsFiltered,
      List.countP_filter, assocJoinedRows, countP_flatMap]
    have hper : ∀ a ∈ db.associations,
        ((expandAssoc db a).countP fun j =>
          ((fun r => r.componentId == k) ∘ projectAssoc) j &&
            assocCondHolds { equipmentId := some eid } j) =
        if (a.componentId == k && (a.equipmentId == eid)) = true then 1 else 0 := by
      intro a ha
      have hpt : ∀ j ∈ expandAssoc db a,
          (((fun r => r.componentId == k) ∘ projectAssoc) j &&
            assocCondHolds { equipmentId := some eid } j) =
          (a.componentId == k && (a.equipmentId == eid)) := by
        intro j hj
        have h1 := (mem_expandAssoc hj).1
        simp only [Function.comp_apply, hcond, projectAssoc, h1]
      by_cases hcase : (a.componentId == k && (a.equipmentId == eid)) = true
      · rw [if_pos hcase]
        have haA : a ∈ assocsFor db eid := by
          rw [assocsFor, List.mem_filter]
          have hca := hcase
          rw [Bool.and_eq_true] at hca
          exact ⟨ha, hca.2⟩
        obtain ⟨e', he', heid'⟩ := hFe a ha
        obtain ⟨c', hc', hcid'⟩ := hFc a ha
        obtain ⟨sp', hsp', hspid'⟩ := hFs a ha
        rw [List.countP_eq_length.mpr fun j hj => by rw [hpt j hj]; exact hcase]
        exact expandAssoc_length_one db a hE hC hS he' heid' hc' hcid' hsp' hspid'
          (hsup a haA)
      · rw [if_neg hcase]
        exact List.countP_eq_zero.mpr fun j hj hcontra => by
          rw [hpt j hj] at hcontra; exact hcase hcontra
    rw [show (db.associations.map fun a => (expandAssoc db a).countP fun j =>
          ((fun r => r.componentId == k) ∘ projectAssoc) j &&
            assocCondHolds { equipmentId := some eid } j) =
        (db.associations.map fun a =>
          if (a.componentId == k && (a.equipmentId == eid)) = true then 1 else 0) from
      List.map_eq_map_iff.mpr hper]
    rw [sum_map_ite_countP, assocsFor, List.countP_filter]
  have hA1 : (assocsFor db eid).countP (fun a => a.componentId == c1) = 2 := by
    have h1 : (assocsFor db eid).countP (fun a => a.componentId == c1) =
        ((assocsFor db eid).map fun a => (a.componentId, a.sparePartId)).countP
          (fun pr => pr.1 == c1) := by
      rw [List.countP_map]; rfl
    rw [h1, hperm.countP_eq]
    simp [List.countP_cons, beq_eq_false_iff_ne.mpr (Ne.symm hc12)]
  have hA2 : (assocsFor db eid).countP (fun a => a.componentId == c2) = 2 := by
    have h1 : (assocsFor db eid).countP (fun a => a.componentId == c2) =
        ((assocsFor db eid).map fun a => (a.componentId, a.sparePartId)).countP
          (fun pr => pr.1 == c2) := by
      rw [List.countP_map]; rfl
    rw [h1, hperm.countP_eq]
    simp [List.countP_cons, beq_eq_false_iff_ne.mpr hc12]
  have hmemA : ∀ k, k ∈ (assocsFor db eid).map (·.componentId) ↔ (k = c1 ∨ k = c2) := by
    intro k
    have h1 : (assocsFor db eid).map (·.componentId) =
        ((assocsFor db eid).map fun a => (a.componentId, a.sparePartId)).map (·.1) := by
      rw [List.map_map]; rfl
    rw [h1, (hperm.map (·.1)).mem_iff]
    simp
  have hmemR : ∀ k, k ∈ (getAssociations db { equipmentId := some eid }).map (·.componentId) ↔
      k ∈ (assocsFor db eid).map (·.componentId) := by
    intro k
    constructor
    · rintro hk
      rw [List.mem_map] at hk
      obtain ⟨r, hr, rfl⟩ := hk
      have hpos' : 0 < (assocsFor db eid).countP (fun a => a.componentId == r.componentId) := by
        rw [← hcnt]
        exact List.countP_pos_iff.mpr ⟨r, hr, by simp⟩
      obtain ⟨a, ha, hab⟩ := List.countP_pos_iff.mp hpos'
      exact List.mem_map.mpr ⟨a, ha, eq_of_beq hab⟩
    · rintro hk
      rw [List.mem_map] at hk
      obtain ⟨a, ha, rfl⟩ := hk
      have hpos' : 0 < (getAssociations db { equipmentId := some eid }).countP
          (fun r => r.componentId == a.componentId) := by
        rw [hcnt]
        exact List.countP_pos_iff.mpr ⟨a, ha, by simp⟩
      obtain ⟨r, hr, hrb⟩ := List.countP_pos_iff.mp hpos'
      exact List.mem_map.mpr ⟨r, hr, eq_of_beq hrb⟩
  obtain ⟨hK1, hK2, hK3, hK4⟩ :=
    buildComponentsMap_inv db (getAssociations db { equipmentId := some eid }) hgood
  have hkeys : ∀ k,
      k ∈ (buildComponentsMap db (getAssociations db { equipmentId := some eid })).map (·.1) ↔
      (k = c1 ∨ k = c2) := by
    intro k
    rw [← mapHasKey_iff, hK2, hmemR, hmemA]
  have hklen : (buildComponentsMap db (getAssociations db { equipmentId := some eid })).length
      = 2 := by
    have hcc : ([c1, c2] : List Nat).Nodup := by simp [hc12]
    have hsub1 : (buildComponentsMap db
        (getAssociations db { equipmentId := some eid })).map (·.1) ⊆ [c1, c2] := by
      intro k hk
      rcases (hkeys k).mp hk with rfl | rfl <;> simp
    have hsub2 : ([c1, c2] : List Nat) ⊆ (buildComponentsMap db
        (getAssociations db { equipmentId := some eid })).map (·.1) := by
      intro k hk
      refine (hkeys k).mpr ?_
      simpa using hk
    have hlen := ((hK1.subperm hsub1).antisymm (hcc.subperm hsub2)).length_eq
    simpa using hlen
  have htree : hierarchyEquipment db eid = some
      { id := e.equipmentId, name := e.equipmentName, type := "设备", data := e,
        children := (buildComponentsMap db
            (getAssociations db { equipmentId := some eid })).map fun p =>
          { id := p.1, name := p.2.component.componentName, type := "部件",
            data := p.2.component,
            children := p.2.spareParts.map fun it =>
              { id := it.1.sparePartId, name := sparePartField it.1 "sparePartName",
                type := "备件",
                data := { sparePart := it.1, importanceLevel := it.2.importanceLevel,
                          supplyCycle := assocOutField it.2 "supplyCycle",
                          quantity := it.2.quantity } } } } := by
    simp only [hierarchyEquipment, hfind]
  refine ⟨_, htree, ?_, ?_⟩
  · simpa using hklen
  · intro ch hch
    simp only [List.mem_map] at hch
    obtain ⟨p, hp, rfl⟩ := hch
    constructor
    · simp only [List.length_map]
      rw [hK3 p hp, hcnt p.1]
      rcases (hkeys p.1).mp (List.mem_map_of_mem (·.1) hp) with h | h
      · rw [h]; exact hA1
      · rw [h]; exact hA2
    · intro sn hsn
      simp only [List.mem_map] at hsn
      obtain ⟨it, hit, rfl⟩ := hsn
      obtain ⟨hrmem, hrcid, hrspid⟩ := hK4 p hp it hit
      obtain ⟨a, hamem, haeid, hacid, haspid, haq, co, hcom, hcoid, himp⟩ :=
        hshape it.2 hrmem
      refine ⟨a, hamem, haeid, ?_, ?_, haq, co, hcom, hcoid, himp⟩
      · rw [← hacid, hrcid]
      · rw [← haspid, hrspid]
  
/-- Witness for the amended hierarchy claim at a concrete database where every
involved spare part has at most one supplier. -/
theorem hierarchy_equipment_two_by_two_witness :
    ∃ t : EquipHierarchy, hierarchyEquipment dbQuad 1 = some t ∧
      t.children.length = 2 ∧
      ∀ ch ∈ t.children, ch.children.length = 2 ∧
        ∀ sn ∈ ch.children, ∃ a ∈ dbQuad.associations,
          a.equipmentId = 1 ∧ a.componentId = ch.id ∧ a.sparePartId = sn.id ∧
          sn.data.quantity = a.quantity ∧
          ∃ co ∈ dbQuad.components, co.componentId = a.componentId ∧
            sn.data.importanceLevel = co.importanceLevel :=
  hierarchy_equipment_two_by_two dbQuad 1 (by decide)
    ⟨1, 2, 1, 2, 1, 2, by decide, by decide, by decide, by decide⟩ (by decide)
